import Mathlib

/-!
# Verification of the Change-Detection & Resilient-Execution Engine

Shallow embedding of the core of the `ultimate-streaming-package`
repository, together with proofs settling the frozen claims about it.

Embedded components (translated statement-by-statement from the source):

* `Heartbeat` — `src/lib/heartbeatSystem.js` (`HeartbeatSystem`):
  listener registry, poll loop, per-key change detection.
* `PkgCache` — the bounded TTL cache of `UltimateRealtimeStreamPackage`
  (`updateCache` / `getFromCache` / `evictOldestCacheEntry`).
* `EdgeCase` — `src/lib/edgeCaseHandler.js` (`EdgeCaseHandler`):
  circuit breaker, failure classification, retry/backoff policy.

JavaScript `Map`s are modelled as association lists in insertion order
(`jsGet`/`jsSet`/`jsDelete`), JavaScript `Set`s of callbacks as
duplicate-free lists (`setAdd`/`List.erase`).  `Date.now()` is an
explicit natural-number clock threaded through the state; `setTimeout`
sleeps advance it.  `Math.random()` jitter is an explicit stream
`Nat → Nat` consumed left to right.
-/

/-! ## JavaScript `Map` as an association list (insertion order) -/

section JsMap

variable {K : Type} {A : Type} [DecidableEq K]

/-- `Map.get`: value at the first (unique, for genuine JS maps) occurrence
of the key. -/
def jsGet : List (K × A) → K → Option A
  | [], _ => none
  | p :: rest, k => if p.1 = k then some p.2 else jsGet rest k

/-- `Map.set`: replace in place if the key is present, else append. -/
def jsSet : List (K × A) → K → A → List (K × A)
  | [], k, a => [(k, a)]
  | p :: rest, k, a => if p.1 = k then (k, a) :: rest else p :: jsSet rest k a

/-- `Map.delete`: remove the entry with the key, if present. -/
def jsDelete : List (K × A) → K → List (K × A)
  | [], _ => []
  | p :: rest, k => if p.1 = k then rest else p :: jsDelete rest k

/-- `Map.has`. -/
def jsHas (m : List (K × A)) (k : K) : Bool :=
  (jsGet m k).isSome

/-- The key list of a map, in insertion order. -/
def jsKeys (m : List (K × A)) : List K :=
  m.map Prod.fst

@[simp] theorem jsGet_nil (k : K) : jsGet ([] : List (K × A)) k = none := rfl

theorem jsGet_jsSet_self (m : List (K × A)) (k : K) (a : A) :
    jsGet (jsSet m k a) k = some a := by
  induction m with
  | nil => simp [jsSet, jsGet]
  | cons p rest ih =>
      by_cases h : p.1 = k
      · simp [jsSet, jsGet, h]
      · simp [jsSet, jsGet, h, ih]

theorem jsGet_jsSet_ne (m : List (K × A)) (k k₂ : K) (a : A) (h : k₂ ≠ k) :
    jsGet (jsSet m k a) k₂ = jsGet m k₂ := by
  induction m with
  | nil => simp [jsSet, jsGet, Ne.symm h]
  | cons p rest ih =>
      by_cases hp : p.1 = k
      · have hpk : ¬ p.1 = k₂ := by rw [hp]; exact Ne.symm h
        simp [jsSet, jsGet, hp, hpk, Ne.symm h]
      · simp only [jsSet, if_neg hp]
        by_cases hq : p.1 = k₂
        · simp [jsGet, hq]
        · simp [jsGet, hq, ih]

theorem jsKeys_jsSet (m : List (K × A)) (k : K) (a : A) :
    jsKeys (jsSet m k a) = if k ∈ jsKeys m then jsKeys m else jsKeys m ++ [k] := by
  induction m with
  | nil => simp [jsSet, jsKeys]
  | cons p rest ih =>
      by_cases h : p.1 = k
      · subst h; simp [jsSet, jsKeys]
      · have : ¬ k = p.1 := fun hh => h hh.symm
        simp only [jsSet, jsKeys, List.map_cons, if_neg h, List.mem_cons, this, false_or]
        rw [show jsKeys (jsSet rest k a) = List.map Prod.fst (jsSet rest k a) from rfl] at ih
        rw [show jsKeys rest = List.map Prod.fst rest from rfl] at ih
        by_cases hm : k ∈ List.map Prod.fst rest <;> simp [hm] at ih ⊢ <;> simp [ih]

theorem jsKeys_jsDelete (m : List (K × A)) (k : K) :
    jsKeys (jsDelete m k) = (jsKeys m).erase k := by
  induction m with
  | nil => simp [jsDelete, jsKeys]
  | cons p rest ih =>
      by_cases h : p.1 = k
      · subst h; simp [jsDelete, jsKeys, List.erase_cons_head]
      · have hne : ¬ p.1 = k := h
        simp only [jsDelete, jsKeys, List.map_cons, if_neg h]
        rw [List.erase_cons_tail]
        · exact congrArg (p.1 :: ·) ih
        · simp [hne]

theorem length_jsSet (m : List (K × A)) (k : K) (a : A) :
    (jsSet m k a).length = if k ∈ jsKeys m then m.length else m.length + 1 := by
  have h := jsKeys_jsSet m k a
  have h1 : (jsSet m k a).length = (jsKeys (jsSet m k a)).length := by
    simp [jsKeys]
  have h2 : m.length = (jsKeys m).length := by simp [jsKeys]
  rw [h1, h, h2]
  by_cases hm : k ∈ jsKeys m <;> simp [hm]

theorem length_jsDelete_mem (m : List (K × A)) (k : K) (h : k ∈ jsKeys m) :
    (jsDelete m k).length = m.length - 1 := by
  have h1 : (jsDelete m k).length = (jsKeys (jsDelete m k)).length := by simp [jsKeys]
  have h2 : m.length = (jsKeys m).length := by simp [jsKeys]
  rw [h1, jsKeys_jsDelete, h2, List.length_erase_of_mem h]

theorem jsGet_isSome_iff_mem (m : List (K × A)) (k : K) :
    (jsGet m k).isSome = true ↔ k ∈ jsKeys m := by
  induction m with
  | nil => simp [jsGet, jsKeys]
  | cons p rest ih =>
      by_cases h : p.1 = k
      · subst h; simp [jsGet, jsKeys]
      · have : ¬ k = p.1 := fun hh => h hh.symm
        simp [jsGet, jsKeys, h, this, ih]

theorem jsGet_eq_none_of_not_mem (m : List (K × A)) (k : K) (h : k ∉ jsKeys m) :
    jsGet m k = none := by
  cases hg : jsGet m k with
  | none => rfl
  | some a =>
      exact absurd ((jsGet_isSome_iff_mem m k).1 (by simp [hg])) h

theorem jsGet_jsDelete_self (m : List (K × A)) (k : K) (h : (jsKeys m).Nodup) :
    jsGet (jsDelete m k) k = none := by
  apply jsGet_eq_none_of_not_mem
  rw [jsKeys_jsDelete]
  exact h.not_mem_erase

theorem jsGet_jsDelete_ne (m : List (K × A)) (k k₂ : K) (h : k₂ ≠ k) :
    jsGet (jsDelete m k) k₂ = jsGet m k₂ := by
  induction m with
  | nil => simp [jsDelete]
  | cons p rest ih =>
      by_cases hp : p.1 = k
      · have hpk : ¬ p.1 = k₂ := by rw [hp]; exact Ne.symm h
        simp [jsDelete, jsGet, hp, hpk, Ne.symm h]
      · simp only [jsDelete, if_neg hp]
        by_cases hq : p.1 = k₂
        · simp [jsGet, hq]
        · simp [jsGet, hq, ih]

theorem nodup_jsKeys_jsSet (m : List (K × A)) (k : K) (a : A)
    (h : (jsKeys m).Nodup) : (jsKeys (jsSet m k a)).Nodup := by
  rw [jsKeys_jsSet]
  by_cases hm : k ∈ jsKeys m
  · simpa [hm]
  · simpa [hm] using List.Nodup.append h (by simp) (by simpa using fun hk => hm hk)

theorem nodup_jsKeys_jsDelete (m : List (K × A)) (k : K)
    (h : (jsKeys m).Nodup) : (jsKeys (jsDelete m k)).Nodup := by
  rw [jsKeys_jsDelete]
  exact h.erase k

theorem jsGet_mem (m : List (K × A)) (k : K) (a : A) (h : jsGet m k = some a) :
    (k, a) ∈ m := by
  induction m with
  | nil => simp [jsGet] at h
  | cons p rest ih =>
      obtain ⟨pk, pa⟩ := p
      by_cases hp : pk = k
      · subst hp
        have h2 : some pa = some a := by simpa [jsGet] using h
        obtain rfl := Option.some.inj h2
        exact List.mem_cons_self _ _
      · simp only [jsGet, if_neg hp] at h
        exact List.mem_cons_of_mem _ (ih h)

end JsMap

/-! ## JavaScript `Set` of callbacks as a duplicate-free list -/

/-- `Set.add`: no-op when the element is already present. -/
def setAdd {C : Type} [DecidableEq C] (s : List C) (c : C) : List C :=
  if c ∈ s then s else s ++ [c]

theorem setAdd_ne_nil {C : Type} [DecidableEq C] (s : List C) (c : C) :
    setAdd s c ≠ [] := by
  unfold setAdd
  by_cases h : c ∈ s
  · simp only [if_pos h]
    intro hnil
    subst hnil
    simp at h
  · simp [h]

theorem setAdd_nodup {C : Type} [DecidableEq C] (s : List C) (c : C)
    (h : s.Nodup) : (setAdd s c).Nodup := by
  unfold setAdd
  by_cases hc : c ∈ s
  · simpa [hc]
  · simpa [hc] using List.Nodup.append h (by simp) (by simpa using fun hk => hc hk)

/-! ## `HeartbeatSystem` (src/lib/heartbeatSystem.js)

The class holds `isPolling`, a `cache` map (key → last known state), a
`listeners` map (key → `Set` of callbacks), and `pollingInterval`.
Callbacks are modelled as abstract identifiers (`Nat`); the `typeof
callback !== 'function'` guard of `addListener` cannot fire in the
model, where every identifier stands for a function.  `setInterval` /
`clearInterval` are modelled by the `isPolling` flag alone: a poll tick
can fire if and only if `isPolling = true` (`intervalId` is set exactly
while `isPolling` holds in the source).  The fire-and-forget initial
`this.poll()` inside `startPolling` is modelled as the first scheduler
tick after the call. -/

namespace Heartbeat

/-- Result of `dbConnector.readData(key)` when it yields a document. -/
structure ReadResult (V : Type) where
  data : V
  lastModified : Option Nat
  deriving DecidableEq, Repr

/-- One entry of `this.cache`: exactly the `{ data, lastModified }`
object stored by `checkKeyForChanges`. -/
structure CacheEntry (V : Type) where
  data : V
  lastModified : Option Nat
  deriving DecidableEq, Repr

/-- A `readData` call either resolves (with `null` modelled as `none`)
or rejects; `checkKeyForChanges` catches the rejection and does
nothing. -/
inductive ReadOutcome (V : Type) where
  | ok (result : Option (ReadResult V))
  | err
  deriving DecidableEq, Repr

inductive ChangeType where
  | created
  | updated
  | deleted
  deriving DecidableEq, Repr

/-- A notification delivered to the listeners of a key. -/
structure Event (V : Type) where
  key : String
  data : Option V
  changeType : ChangeType
  deriving DecidableEq, Repr

structure HBState (V : Type) where
  isPolling : Bool
  cache : List (String × CacheEntry V)
  listeners : List (String × List Nat)
  pollingInterval : Nat
  deriving DecidableEq, Repr

/-- `stopPolling` (the early-return when already stopped has no
observable effect; `intervalId` is represented by `isPolling`). -/
def stopPolling {V : Type} (st : HBState V) : HBState V :=
  if st.isPolling = false then st else { st with isPolling := false }

/-- `startPolling`: throws `'Database not connected'` when the
connector is down, otherwise sets the flag (the initial `this.poll()`
is the next scheduler tick). -/
def startPolling {V : Type} (st : HBState V) (connected : Bool) :
    Except String (HBState V) :=
  if st.isPolling = true then Except.ok st
  else if connected = false then Except.error "Database not connected"
  else Except.ok { st with isPolling := true }

/-- `addListener(key, callback)`; returns the new state.  The returned
unsubscribe closure is `removeListener key callback`. -/
def addListener {V : Type} (st : HBState V) (key : String) (callback : Nat)
    (connected : Bool) : Except String (HBState V) :=
  let listeners :=
    if jsHas st.listeners key then st.listeners else jsSet st.listeners key []
  let s := (jsGet listeners key).getD []
  let listeners := jsSet listeners key (setAdd s callback)
  let st := { st with listeners := listeners }
  if st.isPolling = false then startPolling st connected else Except.ok st

/-- `removeListener(key, callback)`. -/
def removeListener {V : Type} (st : HBState V) (key : String) (callback : Nat) :
    HBState V :=
  let st :=
    match jsGet st.listeners key with
    | none => st
    | some s =>
        let s := s.erase callback
        if s.length = 0 then
          { st with listeners := jsDelete st.listeners key,
                    cache := jsDelete st.cache key }
        else { st with listeners := jsSet st.listeners key s }
  if st.listeners.length = 0 then stopPolling st else st

/-- `hasDataChanged(cachedData, currentData)` — the two-tier check:
timestamp comparison when both timestamps are truthy, else (and as
fallback) `JSON.stringify` comparison, modelled as structural
equality.  A JS timestamp `0` is falsy. -/
def truthyTime : Option Nat → Bool
  | none => false
  | some t => t != 0

def hasDataChanged {V : Type} [DecidableEq V] (cached : CacheEntry V)
    (current : ReadResult V) : Bool :=
  if truthyTime cached.lastModified && truthyTime current.lastModified then
    let cachedTime := cached.lastModified.getD 0
    let currentTime := current.lastModified.getD 0
    if cachedTime < currentTime then true
    else decide (¬ cached.data = current.data)
  else decide (¬ cached.data = current.data)

/-- `checkKeyForChanges(key)`, with the read result passed in
explicitly.  Returns the new state together with the notifications
emitted via `notifyListeners`. -/
def checkKeyForChanges {V : Type} [DecidableEq V] (st : HBState V) (key : String)
    (read : ReadOutcome V) : HBState V × List (Event V) :=
  match read with
  | ReadOutcome.err => (st, [])
  | ReadOutcome.ok currentData =>
      let cachedData := jsGet st.cache key
      match currentData, cachedData with
      | none, none => (st, [])
      | none, some _ =>
          ({ st with cache := jsDelete st.cache key },
           [{ key := key, data := none, changeType := ChangeType.deleted }])
      | some cur, none =>
          let entry : CacheEntry V := { data := cur.data, lastModified := cur.lastModified }
          ({ st with cache := jsSet st.cache key entry },
           [{ key := key, data := some cur.data, changeType := ChangeType.created }])
      | some cur, some cached =>
          if hasDataChanged cached cur then
            let entry : CacheEntry V := { data := cur.data, lastModified := cur.lastModified }
            ({ st with cache := jsSet st.cache key entry },
             [{ key := key, data := some cur.data, changeType := ChangeType.updated }])
          else (st, [])

structure PollResult (V : Type) where
  state : HBState V
  events : List (Event V)
  readKeys : List String
  deriving Repr

/-- `poll()`: consult `isConnected`, stop when disconnected or when no
key is watched, else read every watched key and diff it.  The
`Promise.all` fan-out is modelled as a left fold; each key only
touches its own cache entry. -/
def poll {V : Type} [DecidableEq V] (st : HBState V) (connected : Bool)
    (readData : String → ReadOutcome V) : PollResult V :=
  if connected = false then
    { state := stopPolling st, events := [], readKeys := [] }
  else
    let keysToCheck := jsKeys st.listeners
    if keysToCheck.isEmpty then
      { state := stopPolling st, events := [], readKeys := [] }
    else
      let step := fun (acc : HBState V × List (Event V)) (k : String) =>
        let r := checkKeyForChanges acc.1 k (readData k)
        (r.1, acc.2 ++ r.2)
      let r := keysToCheck.foldl step (st, [])
      { state := r.1, events := r.2, readKeys := keysToCheck }

/-- One firing of the `setInterval` scheduler: `poll` runs only while
the interval is installed, i.e. while `isPolling` holds. -/
def tick {V : Type} [DecidableEq V] (st : HBState V) (connected : Bool)
    (readData : String → ReadOutcome V) : PollResult V :=
  if st.isPolling = true then poll st connected readData
  else { state := st, events := [], readKeys := [] }

/-- `setPollingInterval(interval)`.  The argument is a number by
typing; the `< 100` guard throws before any state is touched.  On the
valid path the loop is restarted when it was running (`startPolling`
can throw `'Database not connected'` after `stopPolling` already ran —
that partially mutated state is returned with the error, exactly as
the exception leaves the object in JS). -/
def setPollingInterval {V : Type} (st : HBState V) (interval : Nat)
    (connected : Bool) : Option String × HBState V :=
  if interval < 100 then
    (some "Polling interval must be a number >= 100ms", st)
  else
    let st := { st with pollingInterval := interval }
    if st.isPolling = true then
      let st := stopPolling st
      match startPolling st connected with
      | Except.ok st => (none, st)
      | Except.error e => (some e, st)
    else (none, st)

/-- `getStatus()` (the fields the claims mention). -/
structure Status where
  isPolling : Bool
  pollingInterval : Nat
  listenerCount : Nat
  cacheSize : Nat
  watchedKeys : List String
  deriving DecidableEq, Repr

def getStatus {V : Type} (st : HBState V) : Status :=
  { isPolling := st.isPolling
    pollingInterval := st.pollingInterval
    listenerCount := st.listeners.length
    cacheSize := st.cache.length
    watchedKeys := jsKeys st.listeners }

/-- Registry well-formedness: JS `Map`s have unique keys, every
listener entry is a JS `Set` (duplicate-free) and — the C5 invariant —
non-empty. -/
def WF {V : Type} (st : HBState V) : Prop :=
  (jsKeys st.listeners).Nodup ∧ (jsKeys st.cache).Nodup ∧
    ∀ p ∈ st.listeners, p.2 ≠ [] ∧ p.2.Nodup

end Heartbeat

/-! ### Additional association-list facts used by the registry proofs -/

theorem mem_jsDelete {K A : Type} [DecidableEq K] (m : List (K × A)) (k : K)
    (p : K × A) (h : p ∈ jsDelete m k) : p ∈ m := by
  induction m with
  | nil => simp [jsDelete] at h
  | cons q rest ih =>
      by_cases hq : q.1 = k
      · simp only [jsDelete, if_pos hq] at h
        exact List.mem_cons_of_mem _ h
      · simp only [jsDelete, if_neg hq, List.mem_cons] at h
        rcases h with h | h
        · exact h ▸ List.mem_cons_self _ _
        · exact List.mem_cons_of_mem _ (ih h)

theorem mem_jsSet {K A : Type} [DecidableEq K] (m : List (K × A)) (k : K)
    (a : A) (p : K × A) (h : p ∈ jsSet m k a) : p = (k, a) ∨ p ∈ m := by
  induction m with
  | nil => simpa [jsSet] using h
  | cons q rest ih =>
      by_cases hq : q.1 = k
      · simp only [jsSet, if_pos hq, List.mem_cons] at h
        rcases h with h | h
        · exact Or.inl h
        · exact Or.inr (List.mem_cons_of_mem _ h)
      · simp only [jsSet, if_neg hq, List.mem_cons] at h
        rcases h with h | h
        · exact Or.inr (h ▸ List.mem_cons_self _ _)
        · rcases ih h with h | h
          · exact Or.inl h
          · exact Or.inr (List.mem_cons_of_mem _ h)

theorem mem_jsSet_nodup {K A : Type} [DecidableEq K] (m : List (K × A)) (k : K)
    (a : A) (p : K × A) (hnd : (jsKeys m).Nodup) (h : p ∈ jsSet m k a) :
    p = (k, a) ∨ (p ∈ m ∧ ¬ p.1 = k) := by
  induction m with
  | nil => simp only [jsSet, List.mem_singleton] at h; exact Or.inl h
  | cons q rest ih =>
      have h0 : (q.1 :: jsKeys rest).Nodup := hnd
      have hq1 : q.1 ∉ jsKeys rest := (List.nodup_cons.1 h0).1
      have hrest : (jsKeys rest).Nodup := (List.nodup_cons.1 h0).2
      by_cases hqk : q.1 = k
      · simp only [jsSet, if_pos hqk, List.mem_cons] at h
        rcases h with h | h
        · exact Or.inl h
        · refine Or.inr ⟨List.mem_cons_of_mem _ h, ?_⟩
          intro hpk
          exact hq1 (by
            rw [hqk, ← hpk]
            exact List.mem_map_of_mem Prod.fst h)
      · simp only [jsSet, if_neg hqk, List.mem_cons] at h
        rcases h with h | h
        · refine Or.inr ⟨h ▸ List.mem_cons_self _ _, ?_⟩
          rw [h]
          exact hqk
        · rcases ih hrest h with h2 | ⟨h2, h3⟩
          · exact Or.inl h2
          · exact Or.inr ⟨List.mem_cons_of_mem _ h2, h3⟩

theorem mem_jsSet_of_ne_key {K A : Type} [DecidableEq K] (m : List (K × A))
    (k : K) (a : A) (p : K × A) (hp : p ∈ m) (hne : ¬ p.1 = k) :
    p ∈ jsSet m k a := by
  induction m with
  | nil => simp at hp
  | cons q rest ih =>
      by_cases hq : q.1 = k
      · simp only [jsSet, if_pos hq]
        rcases List.mem_cons.1 hp with h | h
        · exact absurd (h ▸ hq) hne
        · exact List.mem_cons_of_mem _ h
      · simp only [jsSet, if_neg hq]
        rcases List.mem_cons.1 hp with h | h
        · exact h ▸ List.mem_cons_self _ _
        · exact List.mem_cons_of_mem _ (ih h)

namespace Heartbeat

/-- `stopPolling` touches only the `isPolling` flag. -/
theorem stopPolling_listeners {V : Type} (st : HBState V) :
    (stopPolling st).listeners = st.listeners ∧
      (stopPolling st).cache = st.cache := by
  unfold stopPolling
  by_cases h : st.isPolling = false <;> simp [h]

theorem hasDataChanged_entry_self {V : Type} [DecidableEq V] (cur : ReadResult V) :
    hasDataChanged { data := cur.data, lastModified := cur.lastModified } cur = false := by
  unfold hasDataChanged
  by_cases h : truthyTime cur.lastModified <;> simp [h]

/-- `WF` is preserved by `addListener` (the new callback set is a
non-empty JS `Set`; all other entries are untouched). -/
theorem addListener_WF {V : Type} (st : HBState V) (key : String) (cb : Nat)
    (connected : Bool) (st2 : HBState V) (hwf : WF st)
    (h : addListener st key cb connected = Except.ok st2) : WF st2 := by
  obtain ⟨hnl, hnc, hev⟩ := hwf
  unfold addListener at h
  set L1 := if jsHas st.listeners key then st.listeners else jsSet st.listeners key []
    with hL1
  set s := (jsGet L1 key).getD [] with hs
  set L2 := jsSet L1 key (setAdd s cb) with hL2
  have hL1nodup : (jsKeys L1).Nodup := by
    rw [hL1]
    cases hh : jsHas st.listeners key
    · simpa [hh] using nodup_jsKeys_jsSet st.listeners key [] hnl
    · simpa [hh]
  have hsnodup : s.Nodup := by
    rw [hs, hL1]
    cases hh : jsHas st.listeners key
    · simp [hh, jsGet_jsSet_self]
    · simp only [hh, if_pos]
      cases hg : jsGet st.listeners key with
      | none => simp
      | some l =>
          have := (hev _ (jsGet_mem st.listeners key l hg)).2
          simpa [hg]
  have hstep : WF { st with listeners := L2 } := by
    refine ⟨nodup_jsKeys_jsSet _ _ _ hL1nodup, hnc, ?_⟩
    intro p hp
    rcases mem_jsSet_nodup L1 key (setAdd s cb) p hL1nodup hp with hpe | ⟨hpm, hpk⟩
    · subst hpe
      exact ⟨setAdd_ne_nil s cb, setAdd_nodup s cb hsnodup⟩
    · have hpm2 : p ∈ st.listeners := by
        rw [hL1] at hpm
        cases hh : jsHas st.listeners key
        · rw [hh] at hpm
          simp only [Bool.false_eq_true, if_neg] at hpm
          rcases mem_jsSet st.listeners key [] p hpm with hpe | hpm3
          · exact absurd (by rw [hpe]) hpk
          · exact hpm3
        · simpa [hh] using hpm
      exact hev p hpm2
  by_cases hpoll : ({ st with listeners := L2 } : HBState V).isPolling = false
  · rw [if_pos hpoll] at h
    unfold startPolling at h
    by_cases h1 : ({ st with listeners := L2 } : HBState V).isPolling = true
    · rw [if_pos h1] at h
      cases h
      exact hstep
    · rw [if_neg h1] at h
      by_cases h2 : connected = false
      · rw [if_pos h2] at h
        cases h
      · rw [if_neg h2] at h
        cases h
        exact ⟨hstep.1, hstep.2.1, hstep.2.2⟩
  · rw [if_neg hpoll] at h
    cases h
    exact hstep

/-- `WF` is preserved by `removeListener`. -/
theorem removeListener_WF {V : Type} (st : HBState V) (key : String) (cb : Nat)
    (hwf : WF st) : WF (removeListener st key cb) := by
  obtain ⟨hnl, hnc, hev⟩ := hwf
  unfold removeListener
  cases hg : jsGet st.listeners key with
  | none =>
      simp only [hg]
      by_cases hz : st.listeners.length = 0
      · rw [if_pos hz]
        unfold stopPolling
        by_cases hp : st.isPolling = false <;> simp [hp] <;> exact ⟨hnl, hnc, hev⟩
      · rw [if_neg hz]
        exact ⟨hnl, hnc, hev⟩
  | some s =>
      simp only [hg]
      by_cases hz : (s.erase cb).length = 0
      · simp only [if_pos hz]
        have hwf2 : WF { st with listeners := jsDelete st.listeners key,
                                 cache := jsDelete st.cache key } :=
          ⟨nodup_jsKeys_jsDelete _ _ hnl, nodup_jsKeys_jsDelete _ _ hnc,
            fun p hp => hev p (mem_jsDelete _ _ _ hp)⟩
        by_cases hz2 : (jsDelete st.listeners key).length = 0
        · rw [if_pos hz2]
          unfold stopPolling
          by_cases hp : st.isPolling = false <;> simp [hp] <;> exact hwf2
        · rw [if_neg hz2]
          exact hwf2
      · simp only [if_neg hz]
        have hwf2 : WF { st with listeners := jsSet st.listeners key (s.erase cb) } := by
          refine ⟨nodup_jsKeys_jsSet _ _ _ hnl, hnc, ?_⟩
          intro p hp
          rcases mem_jsSet st.listeners key (s.erase cb) p hp with hpe | hpm
          · subst hpe
            have hsn : s.Nodup := (hev _ (jsGet_mem st.listeners key s hg)).2
            refine ⟨fun hnil => hz ?_, hsn.erase cb⟩
            have h9 : s.erase cb = [] := hnil
            rw [h9]
            rfl
          · exact hev p hpm
        by_cases hz2 : (jsSet st.listeners key (s.erase cb)).length = 0
        · rw [if_pos hz2]
          unfold stopPolling
          by_cases hp : st.isPolling = false <;> simp [hp] <;> exact hwf2
        · rw [if_neg hz2]
          exact hwf2

end Heartbeat


namespace Heartbeat

/-! ### Claim C4 — diff idempotence -/

/-- The cache entry `{ data, lastModified }` that `checkKeyForChanges`
stores for a read result. -/
def mkEntry {V : Type} (cur : ReadResult V) : CacheEntry V :=
  { data := cur.data, lastModified := cur.lastModified }

theorem hasDataChanged_mkEntry {V : Type} [DecidableEq V] (cur : ReadResult V) :
    hasDataChanged (mkEntry cur) cur = false :=
  hasDataChanged_entry_self cur

theorem checkKey_created {V : Type} [DecidableEq V] (st : HBState V) (key : String)
    (cur : ReadResult V) (hg : jsGet st.cache key = none) :
    checkKeyForChanges st key (ReadOutcome.ok (some cur))
      = ({ st with cache := jsSet st.cache key (mkEntry cur) },
         [{ key := key, data := some cur.data, changeType := ChangeType.created }]) := by
  simp [checkKeyForChanges, hg, mkEntry]

theorem checkKey_updated {V : Type} [DecidableEq V] (st : HBState V) (key : String)
    (cur : ReadResult V) (cached : CacheEntry V)
    (hg : jsGet st.cache key = some cached) (hch : hasDataChanged cached cur = true) :
    checkKeyForChanges st key (ReadOutcome.ok (some cur))
      = ({ st with cache := jsSet st.cache key (mkEntry cur) },
         [{ key := key, data := some cur.data, changeType := ChangeType.updated }]) := by
  simp [checkKeyForChanges, hg, hch, mkEntry]

theorem checkKey_unchanged {V : Type} [DecidableEq V] (st : HBState V) (key : String)
    (cur : ReadResult V) (cached : CacheEntry V)
    (hg : jsGet st.cache key = some cached) (hch : hasDataChanged cached cur = false) :
    checkKeyForChanges st key (ReadOutcome.ok (some cur)) = (st, []) := by
  simp [checkKeyForChanges, hg, hch]

/-- C4: processing an unchanged read result twice in a row never emits
a second `created`/`updated` event and leaves the cache entry as-is:
the second application of `checkKeyForChanges` with the same read
result emits no event at all and does not change the state; and for a
key with no cache entry the first application emits exactly one
`created` event. -/
theorem unchanged_read_emits_no_second_event {V : Type} [DecidableEq V]
    (st : HBState V) (key : String) (r : ReadOutcome V)
    (hnd : (jsKeys st.cache).Nodup) :
    (checkKeyForChanges (checkKeyForChanges st key r).1 key r).1
        = (checkKeyForChanges st key r).1 ∧
      (checkKeyForChanges (checkKeyForChanges st key r).1 key r).2 = [] ∧
      (∀ (v : V) (lm : Option Nat), jsGet st.cache key = none →
        r = ReadOutcome.ok (some { data := v, lastModified := lm }) →
        (checkKeyForChanges st key r).2 =
          [{ key := key, data := some v, changeType := ChangeType.created }]) := by
  cases r with
  | err =>
      refine ⟨rfl, rfl, ?_⟩
      intro v lm _ hr
      cases hr
  | ok currentData =>
      cases currentData with
      | none =>
          cases hg : jsGet st.cache key with
          | none =>
              refine ⟨?_, ?_, ?_⟩
              · simp [checkKeyForChanges, hg]
              · simp [checkKeyForChanges, hg]
              · intro v lm _ hr
                cases hr
          | some c =>
              have h1 : checkKeyForChanges st key (ReadOutcome.ok none)
                  = ({ st with cache := jsDelete st.cache key },
                     [{ key := key, data := none, changeType := ChangeType.deleted }]) := by
                simp [checkKeyForChanges, hg]
              have h2 : jsGet (jsDelete st.cache key) key = none :=
                jsGet_jsDelete_self st.cache key hnd
              refine ⟨?_, ?_, ?_⟩
              · rw [h1]
                simp [checkKeyForChanges, h2]
              · rw [h1]
                simp [checkKeyForChanges, h2]
              · intro v lm hget hr
                cases hr
      | some cur =>
          cases hg : jsGet st.cache key with
          | none =>
              have h1 := checkKey_created st key cur hg
              have h2 : jsGet (jsSet st.cache key (mkEntry cur)) key = some (mkEntry cur) :=
                jsGet_jsSet_self st.cache key _
              have h3 := checkKey_unchanged { st with cache := jsSet st.cache key (mkEntry cur) }
                key cur (mkEntry cur) h2 (hasDataChanged_mkEntry cur)
              refine ⟨?_, ?_, ?_⟩
              · rw [h1, h3]
              · rw [h1, h3]
              · intro v lm _ hr
                cases hr
                rw [h1]
          | some cached =>
              cases hch : hasDataChanged cached cur with
              | true =>
                  have h1 := checkKey_updated st key cur cached hg hch
                  have h2 : jsGet (jsSet st.cache key (mkEntry cur)) key
                      = some (mkEntry cur) := jsGet_jsSet_self st.cache key _
                  have h3 := checkKey_unchanged
                    { st with cache := jsSet st.cache key (mkEntry cur) }
                    key cur (mkEntry cur) h2 (hasDataChanged_mkEntry cur)
                  refine ⟨?_, ?_, ?_⟩
                  · rw [h1, h3]
                  · rw [h1, h3]
                  · intro v lm hget hr
                    exact absurd hget (by simp)
              | false =>
                  have h1 := checkKey_unchanged st key cur cached hg hch
                  refine ⟨?_, ?_, ?_⟩
                  · rw [h1, h1]
                  · rw [h1, h1]
                  · intro v lm hget hr
                    exact absurd hget (by simp)

/-- Concrete engine state for the C4 witness: one watcher on
`"orders"`, empty cache. -/
def c4State : HBState Nat :=
  { isPolling := true, cache := [], listeners := [("orders", [0])],
    pollingInterval := 2000 }

/-- Read result for the C4 witness: the literal scenario value
`{value: {status:"new"}, lastModified: T1}` with the payload abstracted
to `1` and `T1 = 7`. -/
def c4Read : ReadOutcome Nat := ReadOutcome.ok (some { data := 1, lastModified := some 7 })

theorem unchanged_read_emits_no_second_event_witness :
    (checkKeyForChanges (checkKeyForChanges c4State "orders" c4Read).1 "orders" c4Read).1
        = (checkKeyForChanges c4State "orders" c4Read).1 ∧
      (checkKeyForChanges (checkKeyForChanges c4State "orders" c4Read).1 "orders" c4Read).2
        = [] ∧
      (checkKeyForChanges c4State "orders" c4Read).2 =
        [{ key := "orders", data := some 1, changeType := ChangeType.created }] := by
  have h := unchanged_read_emits_no_second_event c4State "orders" c4Read (by decide)
  exact ⟨h.1, h.2.1, h.2.2 1 (some 7) (by decide) rfl⟩

end Heartbeat

namespace Heartbeat

/-! ### Claim C5 — watcher lifecycle -/

/-- Removing the last callback reduces `removeListener` to deleting the
key from both maps (possibly also clearing the polling flag). -/
theorem removeListener_last {V : Type} (st : HBState V) (key : String) (cb : Nat)
    (hlast : jsGet st.listeners key = some [cb]) :
    (removeListener st key cb).listeners = jsDelete st.listeners key ∧
      (removeListener st key cb).cache = jsDelete st.cache key := by
  unfold removeListener
  simp only [hlast]
  have herase : ([cb] : List Nat).erase cb = [] := by simp
  rw [herase]
  simp only [List.length_nil, if_pos rfl]
  by_cases hz : (jsDelete st.listeners key).length = 0
  · rw [if_pos (by simpa using hz)]
    exact ⟨(stopPolling_listeners _).1, (stopPolling_listeners _).2⟩
  · rw [if_neg (by simpa using hz)]
    exact ⟨rfl, rfl⟩

/-- C5: a watcher exists for a key exactly while at least one callback
is registered for it (`WF`, preserved by `addListener` and
`removeListener`), and the moment the last callback for a key is
removed via the unsubscribe path, the key's watcher and cache entry are
deleted, the key disappears from `getStatus().watchedKeys`, and no
subsequent poll tick reads it. -/
theorem watcher_destroyed_with_last_callback {V : Type} [DecidableEq V]
    (st : HBState V) (key : String) (cb : Nat)
    (hwf : WF st) (hlast : jsGet st.listeners key = some [cb]) :
    jsGet (removeListener st key cb).listeners key = none ∧
      jsGet (removeListener st key cb).cache key = none ∧
      key ∉ (getStatus (removeListener st key cb)).watchedKeys ∧
      (∀ (connected : Bool) (readData : String → ReadOutcome V),
        key ∉ (poll (removeListener st key cb) connected readData).readKeys) ∧
      WF (removeListener st key cb) ∧
      (∀ (s : HBState V) (k : String) (c : Nat) (conn : Bool) (s2 : HBState V),
        WF s → addListener s k c conn = Except.ok s2 → WF s2) ∧
      (∀ (s : HBState V) (k : String) (c : Nat), WF s → WF (removeListener s k c)) := by
  obtain ⟨hL, hC⟩ := removeListener_last st key cb hlast
  have hkeyout : key ∉ jsKeys (removeListener st key cb).listeners := by
    rw [hL, jsKeys_jsDelete]
    exact hwf.1.not_mem_erase
  refine ⟨?_, ?_, ?_, ?_, ?_, ?_, ?_⟩
  · rw [hL]
    exact jsGet_jsDelete_self st.listeners key hwf.1
  · rw [hC]
    exact jsGet_jsDelete_self st.cache key hwf.2.1
  · simpa [getStatus] using hkeyout
  · intro connected readData
    unfold poll
    by_cases hc : connected = false
    · simp [hc]
    · simp only [if_neg hc]
      by_cases he : (jsKeys (removeListener st key cb).listeners).isEmpty
      · simp [he]
      · simp only [he, Bool.false_eq_true, if_neg]
        exact hkeyout
  · exact removeListener_WF st key cb hwf
  · intro s k c conn s2 hwf2 h
    exact addListener_WF s k c conn s2 hwf2 h
  · intro s k c hwf2
    exact removeListener_WF s k c hwf2

/-- Concrete state for the C5 witness: one watcher with a single
callback and a cache entry for the same key. -/
def c5State : HBState Nat :=
  { isPolling := true,
    cache := [("orders", { data := 1, lastModified := some 7 })],
    listeners := [("orders", [0])],
    pollingInterval := 2000 }

def c5Read : String → ReadOutcome Nat := fun _ => ReadOutcome.ok none

theorem watcher_destroyed_with_last_callback_witness :
    jsGet (removeListener c5State "orders" 0).listeners "orders" = none ∧
      jsGet (removeListener c5State "orders" 0).cache "orders" = none ∧
      "orders" ∉ (getStatus (removeListener c5State "orders" 0)).watchedKeys ∧
      "orders" ∉ (poll (removeListener c5State "orders" 0) true c5Read).readKeys ∧
      WF (removeListener c5State "orders" 0) := by
  have h := watcher_destroyed_with_last_callback c5State "orders" 0
    (by constructor
        · decide
        · constructor
          · decide
          · intro p hp
            simp only [c5State, List.mem_singleton] at hp
            subst hp
            exact ⟨by simp, by simp⟩)
    (by decide)
  exact ⟨h.1, h.2.1, h.2.2.1, h.2.2.2.1 true c5Read, h.2.2.2.2.1⟩

/-! ### Claim C8 — connectivity and the poll loop (corrected) -/

/-- Concrete state for the C8 counterexample: polling is active with
one registered watcher. -/
def c8State : HBState Nat :=
  { isPolling := true, cache := [], listeners := [("orders", [0])],
    pollingInterval := 2000 }

def c8Read : String → ReadOutcome Nat :=
  fun _ => ReadOutcome.ok (some { data := 1, lastModified := some 7 })

/-- C8 counterexample: after one tick observes `isConnected() = false`,
polling is stopped (`isPolling = false`) while the watcher stays
registered; a later tick with `isConnected() = true` issues **no**
reads and changes nothing — contradicting the claim that reads for
still-registered watchers resume as soon as connectivity is restored
without re-subscribing. -/
theorem disconnected_poll_never_resumes_cex :
    (tick c8State false c8Read).state.isPolling = false ∧
      jsKeys (tick c8State false c8Read).state.listeners = ["orders"] ∧
      (tick (tick c8State false c8Read).state true c8Read).readKeys = [] ∧
      (tick (tick c8State false c8Read).state true c8Read).state
        = (tick c8State false c8Read).state := by
  refine ⟨?_, ?_, ?_, ?_⟩ <;> decide

/-- C8 (amended): `isConnected` is consulted by every poll tick; a tick
that observes `false` stops polling entirely (`stopPolling`), retaining
the registered watchers but reading nothing; while `isPolling = false`
subsequent scheduler ticks do nothing regardless of connectivity; and
polling is restarted only by a successful `addListener` call — after
which `isPolling = true` again. -/
theorem disconnected_poll_stops_until_resubscribe {V : Type} [DecidableEq V]
    (st : HBState V) (readData : String → ReadOutcome V) :
    (poll st false readData).state.isPolling = false ∧
      (poll st false readData).readKeys = [] ∧
      (poll st false readData).state.listeners = st.listeners ∧
      (∀ (st2 : HBState V) (connected : Bool) (rd2 : String → ReadOutcome V),
        st2.isPolling = false →
        tick st2 connected rd2 = { state := st2, events := [], readKeys := [] }) ∧
      (∀ (s : HBState V) (k : String) (c : Nat) (s2 : HBState V),
        addListener s k c true = Except.ok s2 → s2.isPolling = true) := by
  refine ⟨?_, ?_, ?_, ?_, ?_⟩
  · unfold poll stopPolling
    by_cases h : st.isPolling = false <;> simp [h]
  · simp [poll]
  · simp only [poll, if_pos rfl]
    exact (stopPolling_listeners st).1
  · intro st2 connected rd2 h
    unfold tick
    rw [h]
    simp
  · intro s k c s2 h
    unfold addListener startPolling at h
    by_cases h1 : ({ s with listeners := jsSet (if jsHas s.listeners k then s.listeners
        else jsSet s.listeners k []) k (setAdd ((jsGet (if jsHas s.listeners k then s.listeners
        else jsSet s.listeners k []) k).getD []) c) } : HBState V).isPolling = false
    · rw [if_pos h1] at h
      rw [if_neg (by rw [h1]; simp)] at h
      simp only [Bool.true_eq_false, if_neg] at h
      cases h
      rfl
    · rw [if_neg h1] at h
      cases h
      simpa using h1

theorem disconnected_poll_stops_until_resubscribe_witness :
    (poll c8State false c8Read).state.isPolling = false ∧
      (poll c8State false c8Read).readKeys = [] ∧
      (poll c8State false c8Read).state.listeners = c8State.listeners ∧
      tick (poll c8State false c8Read).state true c8Read
        = { state := (poll c8State false c8Read).state, events := [], readKeys := [] } := by
  have h := disconnected_poll_stops_until_resubscribe c8State c8Read
  exact ⟨h.1, h.2.1, h.2.2.1, h.2.2.2.1 _ true c8Read h.1⟩

/-! ### Claim C9 — polling-interval validation -/

/-- C9: `setPollingInterval(ms)` with `ms < 100` is rejected with the
validation error and the state is returned untouched: the previous
interval, the polling flag and all registered watchers are unchanged. -/
theorem setPollingInterval_rejects_below_100 {V : Type} (st : HBState V)
    (interval : Nat) (connected : Bool) (h : interval < 100) :
    setPollingInterval st interval connected
        = (some "Polling interval must be a number >= 100ms", st) ∧
      (setPollingInterval st interval connected).2.pollingInterval = st.pollingInterval ∧
      (setPollingInterval st interval connected).2.isPolling = st.isPolling ∧
      (setPollingInterval st interval connected).2.listeners = st.listeners := by
  unfold setPollingInterval
  rw [if_pos h]
  exact ⟨rfl, rfl, rfl, rfl⟩

/-- Concrete state for the C9 witness: literal scenario
`setPollingInterval(50)`. -/
def c9State : HBState Nat :=
  { isPolling := true, cache := [], listeners := [("orders", [0])],
    pollingInterval := 2000 }

theorem setPollingInterval_rejects_below_100_witness :
    50 < 100 ∧
      setPollingInterval c9State 50 true
        = (some "Polling interval must be a number >= 100ms", c9State) :=
  ⟨by decide, (setPollingInterval_rejects_below_100 c9State 50 true (by decide)).1⟩

end Heartbeat

/-! ## Bounded TTL cache of `UltimateRealtimeStreamPackage`
(src/unnamed/part_003: `updateCache`, `getFromCache`,
`evictOldestCacheEntry`)

`this.cache` maps keys to payloads, `this.cacheMetadata` maps keys to
`{timestamp, ttl, accessCount, lastAccess}`.  Config:
`enableCache` (default true), `cacheSize` (default 10000, `0` is falsy
so the stored value is always positive), `cacheTTL` (seconds, default
300). -/

namespace PkgCache

structure CacheMeta where
  timestamp : Nat
  ttl : Nat
  accessCount : Nat
  lastAccess : Nat
  deriving DecidableEq, Repr

structure PkgState (V : Type) where
  cache : List (String × V)
  cacheMetadata : List (String × CacheMeta)
  enableCache : Bool
  cacheSize : Nat
  cacheTTL : Nat
  deriving DecidableEq, Repr

/-- The loop body of `evictOldestCacheEntry`: running accumulator
`(oldestKey, oldestTime)`, updated when an entry's `lastAccess` is
strictly below the current `oldestTime`. -/
def evictStep : (Option String × Nat) → (String × CacheMeta) → (Option String × Nat) :=
  fun acc p => if p.2.lastAccess < acc.2 then (some p.1, p.2.lastAccess) else acc

/-- `evictOldestCacheEntry()`: scan `cacheMetadata` starting from
`oldestTime = Date.now()`; delete the found key from both maps, or do
nothing when no entry has `lastAccess < Date.now()`. -/
def evictOldestCacheEntry {V : Type} (st : PkgState V) (now : Nat) : PkgState V :=
  match (st.cacheMetadata.foldl evictStep (none, now)).1 with
  | some oldestKey =>
      { st with
          cache := jsDelete st.cache oldestKey,
          cacheMetadata := jsDelete st.cacheMetadata oldestKey }
  | none => st

/-- `options.cacheTTL || config.cacheTTL`: the config value is used
when the option is absent or `0` (JS falsiness). -/
def effTTL (cfgTTL : Nat) : Option Nat → Nat
  | some t => if t = 0 then cfgTTL else t
  | none => cfgTTL

/-- The metadata object written by `updateCache` (`ttl` is converted to
milliseconds). -/
def newMeta (now ttl : Nat) : CacheMeta :=
  { timestamp := now, ttl := ttl * 1000, accessCount := 1, lastAccess := now }

/-- `updateCache(key, data, options)`: no-op when caching is disabled;
when `cache.size >= cacheSize` run the LRU eviction first; then write
both maps. -/
def updateCache {V : Type} (st : PkgState V) (key : String) (data : V)
    (optTTL : Option Nat) (now : Nat) : PkgState V :=
  if st.enableCache = false then st
  else
    let ttl := effTTL st.cacheTTL optTTL
    let mid := if st.cacheSize ≤ st.cache.length then evictOldestCacheEntry st now else st
    { mid with
        cache := jsSet mid.cache key data,
        cacheMetadata := jsSet mid.cacheMetadata key (newMeta now ttl) }

/-- `getFromCache(key)`: miss on absent key; lazy TTL eviction when
`now > timestamp + ttl` (both maps are cleaned); otherwise the access
metadata is refreshed and the stored value returned. -/
def getFromCache {V : Type} (st : PkgState V) (key : String) (now : Nat) :
    Option V × PkgState V :=
  if jsHas st.cache key = false then (none, st)
  else
    match jsGet st.cacheMetadata key with
    | some metadata =>
        if metadata.timestamp + metadata.ttl < now then
          (none,
           { st with
               cache := jsDelete st.cache key,
               cacheMetadata := jsDelete st.cacheMetadata key })
        else
          (jsGet st.cache key,
           { st with
               cacheMetadata := jsSet st.cacheMetadata key
                 { metadata with
                     accessCount := metadata.accessCount + 1,
                     lastAccess := now } })
    | none => (jsGet st.cache key, st)

/-- Well-formedness of the two JS maps: unique keys, and `cache` and
`cacheMetadata` always hold exactly the same keys (every code path
updates both together). -/
def WFc {V : Type} (st : PkgState V) : Prop :=
  (jsKeys st.cache).Nodup ∧ jsKeys st.cache = jsKeys st.cacheMetadata

/-- A straight-line sequence of `updateCache` calls
(`(key, value, Date.now())` triples). -/
def runSets {V : Type} (st : PkgState V) : List (String × V × Nat) → PkgState V
  | [] => st
  | op :: rest => runSets (updateCache st op.1 op.2.1 none op.2.2) rest

/-- The clocks of a call sequence are at least `bound` and strictly
increase. -/
def opsAdmissible {V : Type} : Nat → List (String × V × Nat) → Prop
  | _, [] => True
  | bound, op :: rest => bound ≤ op.2.2 ∧ opsAdmissible (op.2.2 + 1) rest

end PkgCache


namespace PkgCache

/-! ### Eviction-scan lemmas -/

theorem evictFold_le (L : List (String × CacheMeta)) (acc : Option String × Nat) :
    (L.foldl evictStep acc).2 ≤ acc.2 ∧
      ∀ p ∈ L, (L.foldl evictStep acc).2 ≤ p.2.lastAccess := by
  induction L generalizing acc with
  | nil => simp
  | cons q rest ih =>
      rw [List.foldl_cons]
      have hstep : (evictStep acc q).2 ≤ acc.2 ∧ (evictStep acc q).2 ≤ q.2.lastAccess := by
        unfold evictStep
        by_cases h : q.2.lastAccess < acc.2
        · rw [if_pos h]
          omega
        · rw [if_neg h]
          omega
      have h2 := ih (evictStep acc q)
      refine ⟨le_trans h2.1 hstep.1, ?_⟩
      intro p hp
      rcases List.mem_cons.1 hp with h | h
      · subst h
        exact le_trans h2.1 hstep.2
      · exact h2.2 p h

theorem evictFold_key (L : List (String × CacheMeta)) (acc : Option String × Nat) :
    L.foldl evictStep acc = acc ∨
      ∃ p ∈ L, (L.foldl evictStep acc).1 = some p.1 ∧
        (L.foldl evictStep acc).2 = p.2.lastAccess := by
  induction L generalizing acc with
  | nil => exact Or.inl rfl
  | cons q rest ih =>
      rw [List.foldl_cons]
      by_cases h : q.2.lastAccess < acc.2
      · have hs : evictStep acc q = (some q.1, q.2.lastAccess) := by
          unfold evictStep
          rw [if_pos h]
        rcases ih (evictStep acc q) with h2 | ⟨p, hp, h3, h4⟩
        · refine Or.inr ⟨q, List.mem_cons_self _ _, ?_, ?_⟩
          · rw [h2, hs]
          · rw [h2, hs]
        · exact Or.inr ⟨p, List.mem_cons_of_mem _ hp, h3, h4⟩
      · have hs : evictStep acc q = acc := by
          unfold evictStep
          rw [if_neg h]
        rw [hs]
        rcases ih acc with h2 | ⟨p, hp, h3, h4⟩
        · exact Or.inl h2
        · exact Or.inr ⟨p, List.mem_cons_of_mem _ hp, h3, h4⟩

theorem evictOldest_eq_delete {V : Type} (st : PkgState V) (now : Nat) (k : String)
    (h : (st.cacheMetadata.foldl evictStep (none, now)).1 = some k) :
    evictOldestCacheEntry st now
      = { st with
            cache := jsDelete st.cache k,
            cacheMetadata := jsDelete st.cacheMetadata k } := by
  unfold evictOldestCacheEntry
  rw [h]

/-- When every entry was last accessed strictly before `now`, the scan
finds an entry with minimal `lastAccess`, and exactly that one entry is
removed from both maps. -/
theorem evictOldest_spec {V : Type} (st : PkgState V) (now : Nat) (hwf : WFc st)
    (hne : st.cacheMetadata ≠ [])
    (hcl : ∀ p ∈ st.cacheMetadata, p.2.lastAccess < now) :
    ∃ k₀ m₀, (k₀, m₀) ∈ st.cacheMetadata ∧
      (∀ p ∈ st.cacheMetadata, m₀.lastAccess ≤ p.2.lastAccess) ∧
      evictOldestCacheEntry st now
        = { st with
              cache := jsDelete st.cache k₀,
              cacheMetadata := jsDelete st.cacheMetadata k₀ } ∧
      (evictOldestCacheEntry st now).cache.length + 1 = st.cache.length ∧
      (evictOldestCacheEntry st now).cacheMetadata.length + 1
        = st.cacheMetadata.length := by
  obtain ⟨q, hq⟩ := List.exists_mem_of_ne_nil st.cacheMetadata hne
  have hfold := evictFold_le st.cacheMetadata (none, now)
  rcases evictFold_key st.cacheMetadata (none, now) with heq | ⟨p, hp, h1, h2⟩
  · exfalso
    have h3 : (st.cacheMetadata.foldl evictStep (none, now)).2 = now := by rw [heq]
    have h4 := hfold.2 q hq
    rw [h3] at h4
    exact absurd (hcl q hq) (by omega)
  · have hdel := evictOldest_eq_delete st now p.1 h1
    have hkeym : p.1 ∈ jsKeys st.cacheMetadata := List.mem_map_of_mem Prod.fst hp
    have hkeyc : p.1 ∈ jsKeys st.cache := by rw [hwf.2]; exact hkeym
    have hlenc : (jsDelete st.cache p.1).length = st.cache.length - 1 :=
      length_jsDelete_mem st.cache p.1 hkeyc
    have hlenm : (jsDelete st.cacheMetadata p.1).length = st.cacheMetadata.length - 1 :=
      length_jsDelete_mem st.cacheMetadata p.1 hkeym
    have hposc : 0 < st.cache.length := by
      have := List.length_pos_of_mem hkeyc
      simpa [jsKeys] using this
    have hposm : 0 < st.cacheMetadata.length := by
      have := List.length_pos_of_mem hkeym
      simpa [jsKeys] using this
    refine ⟨p.1, p.2, by simpa using hp, ?_, hdel, ?_, ?_⟩
    · intro r hr
      have := hfold.2 r hr
      rw [h2] at this
      exact this
    · rw [hdel]
      simp only [hlenc]
      omega
    · rw [hdel]
      simp only [hlenm]
      omega

/-- `evictOldestCacheEntry` preserves well-formedness. -/
theorem evictOldest_WFc {V : Type} (st : PkgState V) (now : Nat) (hwf : WFc st) :
    WFc (evictOldestCacheEntry st now) := by
  unfold evictOldestCacheEntry
  cases h : (st.cacheMetadata.foldl evictStep (none, now)).1 with
  | none => exact hwf
  | some k =>
      refine ⟨nodup_jsKeys_jsDelete _ _ hwf.1, ?_⟩
      rw [jsKeys_jsDelete, jsKeys_jsDelete, hwf.2]

theorem updateCache_disabled {V : Type} (st : PkgState V) (key : String) (data : V)
    (optTTL : Option Nat) (now : Nat) (hen : st.enableCache = false) :
    updateCache st key data optTTL now = st := by
  unfold updateCache
  rw [if_pos hen]

theorem updateCache_full {V : Type} (st : PkgState V) (key : String) (data : V)
    (optTTL : Option Nat) (now : Nat) (hen : ¬ st.enableCache = false)
    (hfull : st.cacheSize ≤ st.cache.length) :
    updateCache st key data optTTL now
      = { evictOldestCacheEntry st now with
            cache := jsSet (evictOldestCacheEntry st now).cache key data,
            cacheMetadata := jsSet (evictOldestCacheEntry st now).cacheMetadata key
              (newMeta now (effTTL st.cacheTTL optTTL)) } := by
  unfold updateCache
  rw [if_neg hen]
  simp only [if_pos hfull]

theorem updateCache_notfull {V : Type} (st : PkgState V) (key : String) (data : V)
    (optTTL : Option Nat) (now : Nat) (hen : ¬ st.enableCache = false)
    (hfull : ¬ st.cacheSize ≤ st.cache.length) :
    updateCache st key data optTTL now
      = { st with
            cache := jsSet st.cache key data,
            cacheMetadata := jsSet st.cacheMetadata key
              (newMeta now (effTTL st.cacheTTL optTTL)) } := by
  unfold updateCache
  rw [if_neg hen]
  simp only [if_neg hfull]

end PkgCache

namespace PkgCache

/-- Single `updateCache` step: keeps well-formedness and the capacity
bound, writes `lastAccess` values that are at most `now`, and leaves
the configuration alone. -/
theorem updateCache_step {V : Type} (st : PkgState V) (key : String) (data : V)
    (optTTL : Option Nat) (now : Nat) (hwf : WFc st)
    (hcap : 0 < st.cacheSize) (hlen : st.cache.length ≤ st.cacheSize)
    (hcl : ∀ p ∈ st.cacheMetadata, p.2.lastAccess < now) :
    WFc (updateCache st key data optTTL now) ∧
      (updateCache st key data optTTL now).cache.length ≤ st.cacheSize ∧
      (∀ p ∈ (updateCache st key data optTTL now).cacheMetadata,
        p.2.lastAccess ≤ now) ∧
      (updateCache st key data optTTL now).cacheSize = st.cacheSize ∧
      (updateCache st key data optTTL now).enableCache = st.enableCache ∧
      (updateCache st key data optTTL now).cacheTTL = st.cacheTTL := by
  by_cases hen : st.enableCache = false
  · rw [updateCache_disabled st key data optTTL now hen]
    exact ⟨hwf, hlen, fun p hp => le_of_lt (hcl p hp), rfl, rfl, rfl⟩
  · by_cases hfull : st.cacheSize ≤ st.cache.length
    · rw [updateCache_full st key data optTTL now hen hfull]
      have hne : st.cacheMetadata ≠ [] := by
        intro hnil
        have hkeq : jsKeys st.cache = [] := by rw [hwf.2, hnil]; rfl
        have h0 : st.cache.length = 0 := by
          have := congrArg List.length hkeq
          simpa [jsKeys] using this
        omega
      obtain ⟨k₀, m₀, hk₀, hmin, heq, hlc, hlm⟩ := evictOldest_spec st now hwf hne hcl
      have hwf2 : WFc (evictOldestCacheEntry st now) := evictOldest_WFc st now hwf
      refine ⟨⟨nodup_jsKeys_jsSet _ _ _ hwf2.1, ?_⟩, ?_, ?_, ?_, ?_, ?_⟩
      · simp only [jsKeys_jsSet, hwf2.2]
      · simp only [length_jsSet]
        by_cases hmem : key ∈ jsKeys (evictOldestCacheEntry st now).cache
        · rw [if_pos hmem]
          omega
        · rw [if_neg hmem]
          omega
      · intro p hp
        simp only at hp
        rcases mem_jsSet (evictOldestCacheEntry st now).cacheMetadata key _ p hp
          with hpe | hpm
        · rw [hpe]
          exact le_refl now
        · have hpmem : p ∈ st.cacheMetadata := by
            rw [heq] at hpm
            exact mem_jsDelete _ _ _ hpm
          exact le_of_lt (hcl p hpmem)
      · rw [heq]
      · rw [heq]
      · rw [heq]
    · rw [updateCache_notfull st key data optTTL now hen hfull]
      refine ⟨⟨nodup_jsKeys_jsSet _ _ _ hwf.1, ?_⟩, ?_, ?_, rfl, rfl, rfl⟩
      · simp only [jsKeys_jsSet, hwf.2]
      · simp only [length_jsSet]
        by_cases hmem : key ∈ jsKeys st.cache
        · rw [if_pos hmem]
          exact hlen
        · rw [if_neg hmem]
          omega
      · intro p hp
        simp only at hp
        rcases mem_jsSet st.cacheMetadata key _ p hp with hpe | hpm
        · rw [hpe]
          exact le_refl now
        · exact le_of_lt (hcl p hpm)

end PkgCache

namespace PkgCache

/-- Capacity bound over a whole sequence of `updateCache` calls with
strictly increasing clocks. -/
theorem runSets_capacity {V : Type} (ops : List (String × V × Nat))
    (st : PkgState V) (bound : Nat) (hwf : WFc st) (hcap : 0 < st.cacheSize)
    (hlen : st.cache.length ≤ st.cacheSize)
    (hcl : ∀ p ∈ st.cacheMetadata, p.2.lastAccess < bound)
    (hops : opsAdmissible bound ops) :
    (runSets st ops).cache.length ≤ st.cacheSize ∧ WFc (runSets st ops) := by
  induction ops generalizing st bound with
  | nil => exact ⟨hlen, hwf⟩
  | cons op rest ih =>
      obtain ⟨hb, hrest⟩ := hops
      have hclnow : ∀ p ∈ st.cacheMetadata, p.2.lastAccess < op.2.2 := by
        intro p hp
        exact lt_of_lt_of_le (hcl p hp) hb
      obtain ⟨hwf2, hlen2, hcl2, hsize2, _, _⟩ :=
        updateCache_step st op.1 op.2.1 none op.2.2 hwf hcap hlen hclnow
      have hcl3 : ∀ p ∈ (updateCache st op.1 op.2.1 none op.2.2).cacheMetadata,
          p.2.lastAccess < op.2.2 + 1 := by
        intro p hp
        exact Nat.lt_succ_of_le (hcl2 p hp)
      have hres := ih (updateCache st op.1 op.2.1 none op.2.2) (op.2.2 + 1) hwf2
        (by rw [hsize2]; exact hcap) (by rw [hsize2]; exact hlen2) hcl3 hrest
      rw [hsize2] at hres
      exact hres

/-- C3 (amended): provided the clock strictly advances across the
`set` calls (every call happens strictly after the `lastAccess` of all
entries present), the cache never holds more than `cacheSize` entries;
and a call that finds the cache at capacity evicts exactly one entry
first, namely one whose `lastAccess` is minimal. -/
theorem cache_capacity_and_lru {V : Type} (ops : List (String × V × Nat))
    (st : PkgState V) (bound : Nat) (hwf : WFc st) (hcap : 0 < st.cacheSize)
    (hlen : st.cache.length ≤ st.cacheSize)
    (hcl : ∀ p ∈ st.cacheMetadata, p.2.lastAccess < bound)
    (hops : opsAdmissible bound ops) :
    ((runSets st ops).cache.length ≤ st.cacheSize ∧ WFc (runSets st ops)) ∧
      (∀ (s : PkgState V) (now : Nat), WFc s → s.cacheMetadata ≠ [] →
        (∀ p ∈ s.cacheMetadata, p.2.lastAccess < now) →
        ∃ k₀ m₀, (k₀, m₀) ∈ s.cacheMetadata ∧
          (∀ p ∈ s.cacheMetadata, m₀.lastAccess ≤ p.2.lastAccess) ∧
          evictOldestCacheEntry s now
            = { s with
                  cache := jsDelete s.cache k₀,
                  cacheMetadata := jsDelete s.cacheMetadata k₀ } ∧
          (evictOldestCacheEntry s now).cache.length + 1 = s.cache.length) ∧
      (∀ (s : PkgState V) (k : String) (v : V) (o : Option Nat) (now : Nat),
        ¬ s.enableCache = false → s.cacheSize ≤ s.cache.length →
        updateCache s k v o now
          = { evictOldestCacheEntry s now with
                cache := jsSet (evictOldestCacheEntry s now).cache k v,
                cacheMetadata := jsSet (evictOldestCacheEntry s now).cacheMetadata k
                  (newMeta now (effTTL s.cacheTTL o)) }) := by
  refine ⟨runSets_capacity ops st bound hwf hcap hlen hcl hops, ?_, ?_⟩
  · intro s now hwf2 hne hcl2
    obtain ⟨k₀, m₀, h1, h2, h3, h4, _⟩ := evictOldest_spec s now hwf2 hne hcl2
    exact ⟨k₀, m₀, h1, h2, h3, h4⟩
  · intro s k v o now hen hfull
    exact updateCache_full s k v o now hen hfull

/-! ### Claim C3 counterexample: same-millisecond inserts overflow the
capacity because `evictOldestCacheEntry` starts its scan at
`oldestTime = Date.now()` with a strict comparison. -/

/-- Fresh package state with `cacheSize = 2` (caching enabled,
`cacheTTL` at its default 300 s). -/
def c3Empty : PkgState Nat :=
  { cache := [], cacheMetadata := [], enableCache := true, cacheSize := 2,
    cacheTTL := 300 }

/-- Three same-millisecond `set` calls on the `cacheSize = 2` cache. -/
def c3Run : PkgState Nat :=
  updateCache (updateCache (updateCache c3Empty "a" 1 none 5) "b" 2 none 5) "c" 3 none 5

/-- C3 counterexample: after `set a; set b; set c` all at the same
clock value, the third `set` finds the cache at capacity but evicts
**nothing** (every `lastAccess` equals `Date.now()`, and the scan only
picks entries with `lastAccess < Date.now()`), so the cache ends up
holding 3 > `cacheSize` = 2 entries — falsifying both "never more than
cacheSize entries" and "exactly one entry is evicted". -/
theorem cache_capacity_cex :
    c3Run.cacheSize = 2 ∧
      c3Run.cache.length = 3 ∧
      (evictOldestCacheEntry
        (updateCache (updateCache c3Empty "a" 1 none 5) "b" 2 none 5) 5)
        = updateCache (updateCache c3Empty "a" 1 none 5) "b" 2 none 5 := by
  refine ⟨?_, ?_, ?_⟩ <;> decide

/-- Witness for the amended C3 theorem: with strictly increasing
clocks the same three `set` calls stay within capacity, and the
eviction picks the least-recently-accessed entry. -/
theorem cache_capacity_and_lru_witness :
    ((runSets c3Empty [("a", 1, 5), ("b", 2, 6), ("c", 3, 7)]).cache.length
        ≤ c3Empty.cacheSize ∧
      WFc (runSets c3Empty [("a", 1, 5), ("b", 2, 6), ("c", 3, 7)])) ∧
      (runSets c3Empty [("a", 1, 5), ("b", 2, 6), ("c", 3, 7)]).cache
        = [("b", 2), ("c", 3)] := by
  have h := cache_capacity_and_lru [("a", 1, 5), ("b", 2, 6), ("c", 3, 7)]
    c3Empty 5 ⟨by decide, by decide⟩ (by decide) (by decide)
    (by intro p hp; simp [c3Empty] at hp)
    ⟨by decide, by decide, by decide, trivial⟩
  refine ⟨h.1, ?_⟩
  decide

/-! ### Claim C6 — TTL semantics of `getFromCache` -/

/-- C6: `getFromCache` misses on an absent key; when the entry's
`timestamp + ttl` lies strictly before `now` the entry is deleted from
both maps as a side effect and the call misses; otherwise the stored
value is returned. -/
theorem getFromCache_ttl {V : Type} (st : PkgState V) (key : String) (now : Nat)
    (hwf : WFc st) :
    (jsHas st.cache key = false → getFromCache st key now = (none, st)) ∧
      (∀ m, jsHas st.cache key = true → jsGet st.cacheMetadata key = some m →
        (m.timestamp + m.ttl < now →
          (getFromCache st key now).1 = none ∧
          jsGet (getFromCache st key now).2.cache key = none ∧
          jsGet (getFromCache st key now).2.cacheMetadata key = none) ∧
        (¬ m.timestamp + m.ttl < now →
          (getFromCache st key now).1 = jsGet st.cache key ∧
          (getFromCache st key now).1.isSome = true ∧
          (getFromCache st key now).2.cache = st.cache)) := by
  constructor
  · intro h
    unfold getFromCache
    rw [if_pos h]
  · intro m hhas hm
    have hnm : (jsKeys st.cacheMetadata).Nodup := by rw [← hwf.2]; exact hwf.1
    constructor
    · intro hexp
      have hred : getFromCache st key now
          = (none,
             { st with
                 cache := jsDelete st.cache key,
                 cacheMetadata := jsDelete st.cacheMetadata key }) := by
        unfold getFromCache
        rw [if_neg (show ¬ jsHas st.cache key = false by simp [hhas])]
        rw [hm]
        simp only [if_pos hexp]
      rw [hred]
      exact ⟨rfl, jsGet_jsDelete_self st.cache key hwf.1,
        jsGet_jsDelete_self st.cacheMetadata key hnm⟩
    · intro hfresh
      have hred : getFromCache st key now
          = (jsGet st.cache key,
             { st with
                 cacheMetadata := jsSet st.cacheMetadata key
                   { m with accessCount := m.accessCount + 1, lastAccess := now } }) := by
        unfold getFromCache
        rw [if_neg (show ¬ jsHas st.cache key = false by simp [hhas])]
        rw [hm]
        simp only [if_neg hfresh]
      rw [hred]
      exact ⟨rfl, by rw [← jsHas]; exact hhas, rfl⟩

/-- Concrete state for the C6 witness: one entry inserted at
`timestamp = 10` with `ttl = 1000` ms. -/
def c6State : PkgState Nat :=
  { cache := [("k", 42)],
    cacheMetadata := [("k", { timestamp := 10, ttl := 1000, accessCount := 1,
                              lastAccess := 10 })],
    enableCache := true, cacheSize := 2, cacheTTL := 300 }

theorem getFromCache_ttl_witness :
    ((getFromCache c6State "k" 2000).1 = none ∧
      jsGet (getFromCache c6State "k" 2000).2.cache "k" = none ∧
      jsGet (getFromCache c6State "k" 2000).2.cacheMetadata "k" = none) ∧
      ((getFromCache c6State "k" 500).1 = jsGet c6State.cache "k" ∧
        (getFromCache c6State "k" 500).1.isSome = true) ∧
      getFromCache c6State "missing" 500 = (none, c6State) := by
  have h1 := getFromCache_ttl c6State "k" 2000 ⟨by decide, by decide⟩
  have h2 := getFromCache_ttl c6State "k" 500 ⟨by decide, by decide⟩
  have hm : jsGet c6State.cacheMetadata "k"
      = some { timestamp := 10, ttl := 1000, accessCount := 1, lastAccess := 10 } := by
    decide
  refine ⟨(h1.2 _ (by decide) hm).1 (by decide), ?_, ?_⟩
  · have := (h2.2 _ (by decide) hm).2 (by decide)
    exact ⟨this.1, this.2.1⟩
  · exact (getFromCache_ttl c6State "missing" 500 ⟨by decide, by decide⟩).1 (by decide)
end PkgCache

/-! ## `EdgeCaseHandler` (src/lib/edgeCaseHandler.js)

`executeWithErrorHandling` with the circuit breaker, the
`Promise.race` timeout, `classifyError`, and the per-category retry
handlers.  The asynchronous operation is modelled as a function from
the invocation index to an `OpCall` (how long the call runs and how it
settles); the `Promise.race` timer wins whenever the duration reaches
`config.operationTimeout`.  `Date.now()` is the `now` field of the
state, advanced by sleeps and operation durations; `Math.random()`
jitter is the stream `jitter : Nat → Nat` (values in `[0, 1000)` in
the source), consumed at index `jidx`.  Retries recurse into
`executeWithErrorHandling`; the recursion is fuel-indexed and the
handlers receive the recursive call as `recur`.  The bookkeeping that
has no effect on results (`operationsInProgress`, event emission,
`console` output, `generateOperationId`) is not represented.  The
trace records every operation invocation — with the race-timer value
used and the `context.timeout` in force — and every sleep. -/

namespace EdgeCase

inductive CBState where
  | CLOSED
  | OPEN
  | HALF_OPEN
  deriving DecidableEq, Repr

inductive ErrorType where
  | CONNECTION_ERROR
  | TIMEOUT_ERROR
  | RESOURCE_ERROR
  | VALIDATION_ERROR
  | AUTHENTICATION_ERROR
  | RATE_LIMIT_ERROR
  | DATA_CORRUPTION_ERROR
  | NETWORK_ERROR
  | UNKNOWN_ERROR
  deriving DecidableEq, Repr

/-- A JS error: its message, and the optional
`error.response.headers['retry-after']` value (in seconds). -/
structure JsError where
  message : String
  retryAfterHeaderSeconds : Option Nat := none
  deriving DecidableEq, Repr

structure Config where
  maxRetries : Nat
  retryDelay : Nat
  circuitBreakerThreshold : Nat
  circuitBreakerTimeout : Nat
  operationTimeout : Nat
  deriving DecidableEq, Repr

/-- The constructor defaults of `EdgeCaseHandler`. -/
def defaultConfig : Config :=
  { maxRetries := 10, retryDelay := 1000, circuitBreakerThreshold := 5,
    circuitBreakerTimeout := 30000, operationTimeout := 10000 }

/-- One invocation of the wrapped operation: how long it runs and how
it settles. -/
structure OpCall (V : Type) where
  duration : Nat
  result : Except JsError V
  deriving Repr

/-- The `context` argument: the retry counter and the `timeout` field
written (but never read back) by `handleTimeoutError`. -/
structure Ctx where
  retryAttempt : Nat := 0
  timeout : Option ℚ := none
  deriving DecidableEq, Repr

/-- The fresh context of a caller-initiated `execute`. -/
def initCtx : Ctx := {}

inductive TraceEv where
  /-- The wrapped operation was invoked: invocation index, the timer
  value the race actually uses, and `context.timeout` at that moment. -/
  | invoke (idx : Nat) (raceTimeout : Nat) (ctxTimeout : Option ℚ)
  /-- `await this.sleep(ms)`. -/
  | sleepEv (ms : Nat)
  deriving DecidableEq, Repr

def TraceEv.isInvoke : TraceEv → Bool
  | TraceEv.invoke _ _ _ => true
  | TraceEv.sleepEv _ => false

def TraceEv.isSleep : TraceEv → Bool
  | TraceEv.invoke _ _ _ => false
  | TraceEv.sleepEv _ => true

structure ExecSt where
  circuitBreakerState : CBState
  failureCount : Nat
  lastFailureTime : Nat
  now : Nat
  jidx : Nat
  calls : Nat
  trace : List TraceEv
  deriving DecidableEq, Repr

/-- The `new EdgeCaseHandler()` state at clock `t`. -/
def initSt (t : Nat) : ExecSt :=
  { circuitBreakerState := CBState.CLOSED, failureCount := 0,
    lastFailureTime := 0, now := t, jidx := 0, calls := 0, trace := [] }

/-- `this.sleep(ms)` advances the clock. -/
def sleep (ms : Nat) (st : ExecSt) : ExecSt :=
  { st with now := st.now + ms, trace := st.trace ++ [TraceEv.sleepEv ms] }

/-- JS `String.prototype.toLowerCase` (character-wise, which is exact
for the ASCII messages the handler produces and matches). -/
def jsToLower (s : String) : String :=
  String.mk (s.data.map Char.toLower)

/-- JS `String.prototype.includes`. -/
def strIncludes (s pat : String) : Bool :=
  (List.range (s.data.length + 1)).any
    (fun i => decide ((s.data.drop i).take pat.data.length = pat.data))

/-- `classifyError(error)`: lower-case the message and match the
substring table, in source order. -/
def classifyError (e : JsError) : ErrorType :=
  let message := jsToLower e.message
  if strIncludes message "connection" || strIncludes message "connect" then
    ErrorType.CONNECTION_ERROR
  else if strIncludes message "timeout" || strIncludes message "timed out" then
    ErrorType.TIMEOUT_ERROR
  else if strIncludes message "memory" || strIncludes message "space" then
    ErrorType.RESOURCE_ERROR
  else if strIncludes message "validation" || strIncludes message "invalid" then
    ErrorType.VALIDATION_ERROR
  else if strIncludes message "auth" || strIncludes message "permission"
      || strIncludes message "unauthorized" then
    ErrorType.AUTHENTICATION_ERROR
  else if strIncludes message "rate limit" || strIncludes message "too many" then
    ErrorType.RATE_LIMIT_ERROR
  else if strIncludes message "corrupt" || strIncludes message "checksum" then
    ErrorType.DATA_CORRUPTION_ERROR
  else if strIncludes message "network" || strIncludes message "host"
      || strIncludes message "dns" then
    ErrorType.NETWORK_ERROR
  else
    ErrorType.UNKNOWN_ERROR

/-- The rejection produced by the circuit check. -/
def circuitOpenError : JsError :=
  { message := "Circuit breaker is OPEN - operation rejected" }

/-- The rejection produced by the `Promise.race` timer. -/
def timeoutError (t : Nat) : JsError :=
  { message := "Operation timeout after " ++ toString t ++ "ms" }

/-- `onOperationSuccess`. -/
def onOperationSuccess (st : ExecSt) : ExecSt :=
  if st.circuitBreakerState = CBState.HALF_OPEN then
    { st with circuitBreakerState := CBState.CLOSED, failureCount := 0 }
  else if st.circuitBreakerState = CBState.CLOSED ∧ 0 < st.failureCount then
    { st with failureCount := st.failureCount - 1 }
  else st

/-- `openCircuitBreaker`. -/
def openCircuitBreaker (st : ExecSt) : ExecSt :=
  { st with circuitBreakerState := CBState.OPEN, lastFailureTime := st.now }

/-- `calculateBackoffDelay(attempt)` with the sampled jitter made
explicit. -/
def calculateBackoffDelay (cfg : Config) (attempt : Nat) (j : Nat) : Nat :=
  min (cfg.retryDelay * 2 ^ (attempt - 1) + j) 30000

/-- `extractRetryAfter(error)`: seconds from the header, times 1000. -/
def extractRetryAfter (e : JsError) : Option Nat :=
  e.retryAfterHeaderSeconds.map (fun s => s * 1000)

/-- `handleOperationFailure(error, operation, context)` and the
per-category handlers it dispatches to.  `recur` is the recursive call
into `executeWithErrorHandling` performed by each handler's retry
path. -/
def handleOperationFailure {V : Type} (cfg : Config) (jitter : Nat → Nat)
    (recur : Ctx → ExecSt → Option (Except JsError V × ExecSt))
    (e : JsError) (ctx : Ctx) (st : ExecSt) :
    Option (Except JsError V × ExecSt) :=
  let st := { st with failureCount := st.failureCount + 1, lastFailureTime := st.now }
  let errorType := classifyError e
  let st := if cfg.circuitBreakerThreshold ≤ st.failureCount then
    openCircuitBreaker st else st
  match errorType with
  | ErrorType.CONNECTION_ERROR =>
      let retryAttempt := ctx.retryAttempt + 1
      if cfg.maxRetries < retryAttempt then
        some (Except.error { message := "Max retries (" ++ toString cfg.maxRetries
          ++ ") exceeded for connection error: " ++ e.message }, st)
      else
        let j := jitter st.jidx
        let st := { st with jidx := st.jidx + 1 }
        let delay := calculateBackoffDelay cfg retryAttempt j
        recur { ctx with retryAttempt := retryAttempt } (sleep delay st)
  | ErrorType.TIMEOUT_ERROR =>
      let retryAttempt := ctx.retryAttempt + 1
      if 3 < retryAttempt then
        some (Except.error { message := "Timeout retries exceeded: " ++ e.message }, st)
      else
        let newTimeout : ℚ := (cfg.operationTimeout : ℚ) * (3 / 2) ^ retryAttempt
        recur { ctx with retryAttempt := retryAttempt, timeout := some newTimeout }
          (sleep (1000 * retryAttempt) st)
  | ErrorType.RESOURCE_ERROR =>
      let st := sleep 5000 st
      let retryAttempt := ctx.retryAttempt + 1
      if 2 < retryAttempt then
        some (Except.error { message := "Resource error retries exceeded: "
          ++ e.message }, st)
      else recur { ctx with retryAttempt := retryAttempt } st
  | ErrorType.VALIDATION_ERROR => some (Except.error e, st)
  | ErrorType.AUTHENTICATION_ERROR =>
      let st := sleep 2000 st
      let retryAttempt := ctx.retryAttempt + 1
      if 1 < retryAttempt then
        some (Except.error { message := "Authentication error: " ++ e.message }, st)
      else recur { ctx with retryAttempt := retryAttempt } st
  | ErrorType.RATE_LIMIT_ERROR =>
      let retryAfter := (extractRetryAfter e).getD 5000
      let st := sleep retryAfter st
      let retryAttempt := ctx.retryAttempt + 1
      if 3 < retryAttempt then
        some (Except.error { message := "Rate limit retries exceeded: "
          ++ e.message }, st)
      else recur { ctx with retryAttempt := retryAttempt } st
  | ErrorType.DATA_CORRUPTION_ERROR =>
      some (Except.error { message := "Data corruption detected: " ++ e.message }, st)
  | ErrorType.NETWORK_ERROR =>
      let retryAttempt := ctx.retryAttempt + 1
      if cfg.maxRetries < retryAttempt then
        some (Except.error { message := "Network error retries exceeded: "
          ++ e.message }, st)
      else
        let delay := min (cfg.retryDelay * 2 ^ retryAttempt) 30000
        recur { ctx with retryAttempt := retryAttempt } (sleep delay st)
  | ErrorType.UNKNOWN_ERROR =>
      let retryAttempt := ctx.retryAttempt + 1
      if cfg.maxRetries / 2 < retryAttempt then
        some (Except.error e, st)
      else
        let j := jitter st.jidx
        let st := { st with jidx := st.jidx + 1 }
        let delay := calculateBackoffDelay cfg retryAttempt j
        recur { ctx with retryAttempt := retryAttempt } (sleep delay st)

/-- `executeWithErrorHandling(operation, context)`, fuel-indexed (the
fuel only bounds the retry recursion depth; `none` = out of fuel,
which never happens for sufficient fuel).  Statement order follows the
source: circuit check (throwing inside the `try`, so the rejection
lands in `handleOperationFailure`), then the `Promise.race` of the
operation against the `config.operationTimeout` timer, then
success/failure handling. -/
def execF {V : Type} (cfg : Config) (op : Nat → OpCall V) (jitter : Nat → Nat) :
    Nat → Ctx → ExecSt → Option (Except JsError V × ExecSt)
  | 0, _, _ => none
  | fuel + 1, ctx, st =>
      let handle := handleOperationFailure cfg jitter (execF cfg op jitter fuel)
      let race := fun (st : ExecSt) =>
        let call := op st.calls
        let raceTimeout := cfg.operationTimeout
        let st := { st with calls := st.calls + 1,
                            trace := st.trace ++ [TraceEv.invoke st.calls raceTimeout ctx.timeout] }
        if call.duration < raceTimeout then
          match call.result with
          | Except.ok v =>
              some (Except.ok v, onOperationSuccess { st with now := st.now + call.duration })
          | Except.error e => handle e ctx { st with now := st.now + call.duration }
        else
          handle (timeoutError raceTimeout) ctx { st with now := st.now + raceTimeout }
      if st.circuitBreakerState = CBState.OPEN then
        if cfg.circuitBreakerTimeout < st.now - st.lastFailureTime then
          race { st with circuitBreakerState := CBState.HALF_OPEN }
        else
          handle circuitOpenError ctx st
      else race st

/-- Top-level entry: enough fuel for every retry chain (each recursion
increments `retryAttempt`, and every handler surfaces once its bound —
at most `max maxRetries 3` — is exceeded). -/
def executeWithErrorHandling {V : Type} (cfg : Config) (op : Nat → OpCall V)
    (jitter : Nat → Nat) (ctx : Ctx) (st : ExecSt) :
    Option (Except JsError V × ExecSt) :=
  execF cfg op jitter (max cfg.maxRetries 3 + 2) ctx st

end EdgeCase

namespace EdgeCase

/-- The first two statements of `handleOperationFailure`:
`this.failureCount++; this.lastFailureTime = Date.now()`. -/
def markFailed (st : ExecSt) : ExecSt :=
  { st with failureCount := st.failureCount + 1, lastFailureTime := st.now }

/-- Consuming one `Math.random()` sample. -/
def bumpJitter (st : ExecSt) : ExecSt :=
  { st with jidx := st.jidx + 1 }

theorem countP_invoke_cons_sleep (d : Nat) (tr : List TraceEv) :
    (TraceEv.sleepEv d :: tr).countP (fun ev => ev.isInvoke)
      = tr.countP (fun ev => ev.isInvoke) := by
  rw [List.countP_cons]
  rfl

theorem countP_sleep_cons_sleep (d : Nat) (tr : List TraceEv) :
    (TraceEv.sleepEv d :: tr).countP (fun ev => ev.isSleep)
      = tr.countP (fun ev => ev.isSleep) + 1 := by
  rw [List.countP_cons]
  rfl

theorem countP_invoke_cons_invoke (i rt : Nat) (ct : Option ℚ) (tr : List TraceEv) :
    (TraceEv.invoke i rt ct :: tr).countP (fun ev => ev.isInvoke)
      = tr.countP (fun ev => ev.isInvoke) + 1 := by
  rw [List.countP_cons]
  rfl

theorem countP_sleep_cons_invoke (i rt : Nat) (ct : Option ℚ) (tr : List TraceEv) :
    (TraceEv.invoke i rt ct :: tr).countP (fun ev => ev.isSleep)
      = tr.countP (fun ev => ev.isSleep) := by
  rw [List.countP_cons]
  rfl

theorem classify_circuitOpen : classifyError circuitOpenError = ErrorType.UNKNOWN_ERROR := by
  decide

theorem openCB_fix (st : ExecSt) (h1 : st.circuitBreakerState = CBState.OPEN)
    (h2 : st.lastFailureTime = st.now) : openCircuitBreaker st = st := by
  unfold openCircuitBreaker
  cases st
  simp only at h1 h2
  simp [h1, h2]

theorem execF_open_step {V : Type} (cfg : Config) (op : Nat → OpCall V)
    (J : Nat → Nat) (fuel : Nat) (ctx : Ctx) (st : ExecSt)
    (h1 : st.circuitBreakerState = CBState.OPEN)
    (h2 : ¬ cfg.circuitBreakerTimeout < st.now - st.lastFailureTime) :
    execF cfg op J (fuel + 1) ctx st
      = handleOperationFailure cfg J (execF cfg op J fuel) circuitOpenError ctx st := by
  simp only [execF]
  rw [if_pos h1, if_neg h2]

theorem handleFailure_circuitOpen {V : Type} (J : Nat → Nat)
    (recur : Ctx → ExecSt → Option (Except JsError V × ExecSt))
    (ctx : Ctx) (st : ExecSt) (hopen : st.circuitBreakerState = CBState.OPEN) :
    handleOperationFailure defaultConfig J recur circuitOpenError ctx st
      = (if 5 < ctx.retryAttempt + 1 then
          some (Except.error circuitOpenError, markFailed st)
        else
          recur { ctx with retryAttempt := ctx.retryAttempt + 1 }
            (sleep (calculateBackoffDelay defaultConfig (ctx.retryAttempt + 1) (J st.jidx))
              (bumpJitter (markFailed st)))) := by
  have hfix : (if defaultConfig.circuitBreakerThreshold ≤ st.failureCount + 1 then openCircuitBreaker { st with failureCount := st.failureCount + 1, lastFailureTime := st.now } else { st with failureCount := st.failureCount + 1, lastFailureTime := st.now }) = { st with failureCount := st.failureCount + 1, lastFailureTime := st.now } := by
    rw [openCB_fix { st with failureCount := st.failureCount + 1, lastFailureTime := st.now } hopen rfl, ite_self]
  simp only [handleOperationFailure, classify_circuitOpen, hfix]
  rfl

end EdgeCase

namespace EdgeCase

/-- While the breaker is OPEN and the cool-down has not elapsed, a call
into `execF` never invokes the operation: the circuit rejection is
itself routed through `handleOperationFailure` (classified Unknown) and
retried with backoff until the generic budget `floor(maxRetries/2) = 5`
is exhausted, whereupon the `CircuitOpenError` surfaces.  Stated for
the default configuration; `ctx.retryAttempt` may be arbitrary. -/
theorem execF_open_reject {V : Type} (op : Nat → OpCall V) (J : Nat → Nat) :
    ∀ (fuel : Nat) (ctx : Ctx) (st : ExecSt),
      st.circuitBreakerState = CBState.OPEN →
      st.now - st.lastFailureTime ≤ 30000 →
      5 - ctx.retryAttempt + 1 ≤ fuel →
      ∃ st2,
        execF defaultConfig op J fuel ctx st = some (Except.error circuitOpenError, st2) ∧
          st2.circuitBreakerState = CBState.OPEN ∧
          st2.calls = st.calls ∧
          st2.failureCount = st.failureCount + (5 - ctx.retryAttempt) + 1 ∧
          st2.lastFailureTime = st2.now ∧
          st.now ≤ st2.now ∧
          ∃ tr, st2.trace = st.trace ++ tr ∧
            tr.countP (fun ev => ev.isInvoke) = 0 ∧
            tr.countP (fun ev => ev.isSleep) = 5 - ctx.retryAttempt := by
  intro fuel
  induction fuel with
  | zero =>
      intro ctx st _ _ hfuel
      omega
  | succ n ih =>
      intro ctx st hopen helapsed hfuel
      have hnotlt : ¬ defaultConfig.circuitBreakerTimeout < st.now - st.lastFailureTime := by
        simp only [defaultConfig]
        omega
      rw [execF_open_step defaultConfig op J n ctx st hopen hnotlt]
      rw [handleFailure_circuitOpen J _ ctx st hopen]
      by_cases hr : 5 < ctx.retryAttempt + 1
      · rw [if_pos hr]
        refine ⟨markFailed st, rfl, hopen, rfl, ?_, rfl, le_refl _, [], by simp [markFailed], by simp, ?_⟩
        · show st.failureCount + 1 = st.failureCount + (5 - ctx.retryAttempt) + 1
          omega
        · simp only [List.countP_nil]
          omega
      · rw [if_neg hr]
        have hdle : calculateBackoffDelay defaultConfig (ctx.retryAttempt + 1) (J st.jidx)
            ≤ 30000 := by
          unfold calculateBackoffDelay
          omega
        have h2 : (sleep (calculateBackoffDelay defaultConfig (ctx.retryAttempt + 1) (J st.jidx))
            (bumpJitter (markFailed st))).now
            - (sleep (calculateBackoffDelay defaultConfig (ctx.retryAttempt + 1) (J st.jidx))
              (bumpJitter (markFailed st))).lastFailureTime ≤ 30000 := by
          show (st.now + calculateBackoffDelay defaultConfig (ctx.retryAttempt + 1) (J st.jidx))
            - st.now ≤ 30000
          omega
        have h3 : 5 - (ctx.retryAttempt + 1) + 1 ≤ n := by omega
        obtain ⟨st2, he, ho2, hc2, hf2, hl2, hn2, tr, htr, hcinv, hcslp⟩ :=
          ih { ctx with retryAttempt := ctx.retryAttempt + 1 }
            (sleep (calculateBackoffDelay defaultConfig (ctx.retryAttempt + 1) (J st.jidx))
              (bumpJitter (markFailed st))) hopen h2 h3
        refine ⟨st2, he, ho2, hc2, ?_, hl2, ?_, ?_⟩
        · rw [hf2]
          have hf3 : (sleep (calculateBackoffDelay defaultConfig (ctx.retryAttempt + 1) (J st.jidx)) (bumpJitter (markFailed st))).failureCount = st.failureCount + 1 := rfl
          have hf4 : ({ ctx with retryAttempt := ctx.retryAttempt + 1 } : Ctx).retryAttempt = ctx.retryAttempt + 1 := rfl
          rw [hf3, hf4]
          omega
        · have : st.now ≤ (sleep (calculateBackoffDelay defaultConfig (ctx.retryAttempt + 1)
              (J st.jidx)) (bumpJitter (markFailed st))).now := by
            show st.now ≤ st.now + _
            omega
          exact le_trans this hn2
        · refine ⟨TraceEv.sleepEv (calculateBackoffDelay defaultConfig
            (ctx.retryAttempt + 1) (J st.jidx)) :: tr, ?_, ?_, ?_⟩
          · rw [htr]
            show (st.trace ++ [_]) ++ tr = _
            rw [List.append_assoc]
            rfl
          · rw [countP_invoke_cons_sleep]
            exact hcinv
          · rw [countP_sleep_cons_sleep, hcslp]
            have hf4 : ({ ctx with retryAttempt := ctx.retryAttempt + 1 } : Ctx).retryAttempt = ctx.retryAttempt + 1 := rfl
            rw [hf4]
            omega

end EdgeCase


deriving instance DecidableEq for Except

namespace EdgeCase

/-! ### Claims C1 and C10 — execute while the breaker is OPEN -/

/-- The all-zero jitter stream (one possible draw of
`Math.random() * 1000`). -/
def zeroJitter : Nat → Nat := fun _ => 0

/-- An operation that settles instantly and successfully; used to show
the wrapped operation is never consulted while the breaker is open. -/
def instantOkOp : Nat → OpCall Nat :=
  fun _ => { duration := 0, result := Except.ok 42 }

/-- Breaker OPEN, five failures on record, last failure at clock 0,
current clock 1 — 1 ms into the 30 s cool-down. -/
def openBreakerSt : ExecSt :=
  { circuitBreakerState := CBState.OPEN, failureCount := 5, lastFailureTime := 0,
    now := 1, jidx := 0, calls := 0, trace := [] }

/-- C1 counterexample: with the breaker OPEN and the cool-down not
elapsed, `executeWithErrorHandling` does **not** fail immediately: the
circuit rejection is caught by the operation's own failure handler,
classified Unknown, and retried five times with backoff sleeps
(1000/2000/4000/8000/16000 ms here) before the `CircuitOpenError`
finally surfaces — 31000 ms late.  The wrapped operation is indeed
never invoked. -/
theorem circuit_open_not_immediate_cex :
    ((executeWithErrorHandling defaultConfig instantOkOp zeroJitter initCtx
        openBreakerSt).map (fun r => r.1))
      = some (Except.error circuitOpenError) ∧
      ((executeWithErrorHandling defaultConfig instantOkOp zeroJitter initCtx
          openBreakerSt).map (fun r => r.2.calls)) = some 0 ∧
      ((executeWithErrorHandling defaultConfig instantOkOp zeroJitter initCtx
          openBreakerSt).map (fun r => r.2.trace))
        = some [TraceEv.sleepEv 1000, TraceEv.sleepEv 2000, TraceEv.sleepEv 4000,
                TraceEv.sleepEv 8000, TraceEv.sleepEv 16000] ∧
      ((executeWithErrorHandling defaultConfig instantOkOp zeroJitter initCtx
          openBreakerSt).map (fun r => r.2.now)) = some 31001 := by
  refine ⟨?_, ?_, ?_, ?_⟩ <;> rfl

/-- C1 (amended): for every call made with the breaker OPEN and less
than `circuitBreakerTimeout` elapsed since the last failure (default
configuration), the wrapped operation is never invoked and the call
fails with the `CircuitOpenError` itself — but not immediately: the
rejection passes through `handleOperationFailure`, is classified
Unknown, and is retried `floor(maxRetries/2) = 5` times with backoff
sleeps before surfacing. -/
theorem circuit_open_rejection_retried_then_surfaced {V : Type}
    (op : Nat → OpCall V) (J : Nat → Nat) (st : ExecSt)
    (hopen : st.circuitBreakerState = CBState.OPEN)
    (helapsed : st.now - st.lastFailureTime ≤ 30000) :
    ∃ st2, executeWithErrorHandling defaultConfig op J initCtx st
        = some (Except.error circuitOpenError, st2) ∧
      st2.calls = st.calls ∧
      ∃ tr, st2.trace = st.trace ++ tr ∧
        tr.countP (fun ev => ev.isInvoke) = 0 ∧
        tr.countP (fun ev => ev.isSleep) = 5 := by
  obtain ⟨st2, he, _, hc, _, _, _, tr, htr, hi, hs⟩ :=
    execF_open_reject op J (max defaultConfig.maxRetries 3 + 2) initCtx st hopen
      helapsed (by simp [defaultConfig, initCtx])
  exact ⟨st2, he, hc, tr, htr, hi, hs⟩

theorem circuit_open_rejection_retried_then_surfaced_witness :
    openBreakerSt.circuitBreakerState = CBState.OPEN ∧
      openBreakerSt.now - openBreakerSt.lastFailureTime ≤ 30000 ∧
      ∃ st2, executeWithErrorHandling defaultConfig instantOkOp zeroJitter initCtx
          openBreakerSt = some (Except.error circuitOpenError, st2) ∧
        st2.calls = openBreakerSt.calls ∧
        ∃ tr, st2.trace = openBreakerSt.trace ++ tr ∧
          tr.countP (fun ev => ev.isInvoke) = 0 ∧
          tr.countP (fun ev => ev.isSleep) = 5 :=
  ⟨by decide, by decide,
    circuit_open_rejection_retried_then_surfaced instantOkOp zeroJitter openBreakerSt
      (by decide) (by decide)⟩

/-- C10: a circuit-open rejection is itself recorded as a failure.
For every `execute` call arriving while the breaker is OPEN within the
cool-down (default configuration), the underlying operation is never
invoked, yet `failureCount` grows (by 6: the rejection plus its five
generic retries) and `lastFailureTime` is refreshed to the clock of the
final rejection; the breaker stays OPEN, and a follow-up call arriving
any `d ≤ circuitBreakerTimeout` later is rejected the same way again —
so back-to-back calls postpone the OPEN → HALF_OPEN transition
indefinitely. -/
theorem circuit_open_rejection_counts_as_failure {V : Type}
    (op : Nat → OpCall V) (J : Nat → Nat) (st : ExecSt)
    (hopen : st.circuitBreakerState = CBState.OPEN)
    (helapsed : st.now - st.lastFailureTime ≤ 30000) :
    ∃ st2, executeWithErrorHandling defaultConfig op J initCtx st
        = some (Except.error circuitOpenError, st2) ∧
      st2.calls = st.calls ∧
      st2.failureCount = st.failureCount + 6 ∧
      st2.lastFailureTime = st2.now ∧
      st.now ≤ st2.now ∧
      st2.circuitBreakerState = CBState.OPEN ∧
      (∀ d : Nat, d ≤ 30000 →
        ∃ st3, executeWithErrorHandling defaultConfig op J initCtx
            { st2 with now := st2.now + d }
          = some (Except.error circuitOpenError, st3) ∧
          st3.calls = st2.calls ∧
          st3.failureCount = st2.failureCount + 6 ∧
          st3.circuitBreakerState = CBState.OPEN) := by
  have h0 : initCtx.retryAttempt = 0 := rfl
  obtain ⟨st2, he, ho2, hc, hf, hl, hn, _⟩ :=
    execF_open_reject op J (max defaultConfig.maxRetries 3 + 2) initCtx st hopen
      helapsed (by simp [defaultConfig, initCtx])
  rw [h0] at hf
  refine ⟨st2, he, hc, by rw [hf], hl, hn, ho2, ?_⟩
  intro d hd
  have h1 : ({ st2 with now := st2.now + d } : ExecSt).circuitBreakerState
      = CBState.OPEN := ho2
  have h2 : ({ st2 with now := st2.now + d } : ExecSt).now
      - ({ st2 with now := st2.now + d } : ExecSt).lastFailureTime ≤ 30000 := by
    show st2.now + d - st2.lastFailureTime ≤ 30000
    rw [hl]
    omega
  obtain ⟨st3, he3, ho3, hc3, hf3, _, _, _⟩ :=
    execF_open_reject op J (max defaultConfig.maxRetries 3 + 2) initCtx
      { st2 with now := st2.now + d } h1 h2 (by simp [defaultConfig, initCtx])
  rw [h0] at hf3
  have hproj : ({ st2 with now := st2.now + d } : ExecSt).failureCount
      = st2.failureCount := rfl
  rw [hproj] at hf3
  exact ⟨st3, he3, hc3, by rw [hf3], ho3⟩

theorem circuit_open_rejection_counts_as_failure_witness :
    openBreakerSt.circuitBreakerState = CBState.OPEN ∧
      openBreakerSt.now - openBreakerSt.lastFailureTime ≤ 30000 ∧
      ∃ st2, executeWithErrorHandling defaultConfig instantOkOp zeroJitter initCtx
          openBreakerSt = some (Except.error circuitOpenError, st2) ∧
        st2.calls = openBreakerSt.calls ∧
        st2.failureCount = openBreakerSt.failureCount + 6 ∧
        st2.lastFailureTime = st2.now := by
  have h := circuit_open_rejection_counts_as_failure instantOkOp zeroJitter
    openBreakerSt (by decide) (by decide)
  obtain ⟨st2, he, hc, hf, hl, _⟩ := h
  exact ⟨by decide, by decide, st2, he, hc, hf, hl⟩

/-! ### Claim C7 — Timeout retry policy (the increased timeout is
computed but never used) -/

/-- An operation that always takes 20 s — far beyond the 10 s
`operationTimeout` — so every invocation is lost to the race timer. -/
def slowOp : Nat → OpCall Nat :=
  fun _ => { duration := 20000, result := Except.ok 1 }

/-- The race-timer values of the invocations in a trace. -/
def raceTimeouts (tr : List TraceEv) : List Nat :=
  tr.filterMap (fun ev => match ev with
    | TraceEv.invoke _ rt _ => some rt
    | TraceEv.sleepEv _ => none)

/-- The sleeps of a trace. -/
def sleepsOf (tr : List TraceEv) : List Nat :=
  tr.filterMap (fun ev => match ev with
    | TraceEv.invoke _ _ _ => none
    | TraceEv.sleepEv ms => some ms)

/-- The `context.timeout` values in force at each invocation. -/
def ctxTimeouts (tr : List TraceEv) : List (Option ℚ) :=
  tr.filterMap (fun ev => match ev with
    | TraceEv.invoke _ _ ct => some ct
    | TraceEv.sleepEv _ => none)

/-- C7: a Timeout-classified operation is retried at most 3 times with
`1000ms·attempt` backoff — but the race timer of every retry is still
`config.operationTimeout` (10000 ms): the increased value
`operationTimeout·1.5^n` is computed into `context.timeout`
(15000/22500/33750) and never read back, so no retry ever races
against the increased timeout. -/
theorem timeout_retry_race_uses_config_timeout :
    ((executeWithErrorHandling defaultConfig slowOp zeroJitter initCtx
        (initSt 0)).map (fun r => raceTimeouts r.2.trace))
      = some [10000, 10000, 10000, 10000] ∧
      ((executeWithErrorHandling defaultConfig slowOp zeroJitter initCtx
          (initSt 0)).map (fun r => sleepsOf r.2.trace))
        = some [1000, 2000, 3000] ∧
      ((executeWithErrorHandling defaultConfig slowOp zeroJitter initCtx
          (initSt 0)).map (fun r => ctxTimeouts r.2.trace))
        = some [none,
            some ((defaultConfig.operationTimeout : ℚ) * (3 / 2) ^ 1),
            some ((defaultConfig.operationTimeout : ℚ) * (3 / 2) ^ 2),
            some ((defaultConfig.operationTimeout : ℚ) * (3 / 2) ^ 3)] ∧
      ((executeWithErrorHandling defaultConfig slowOp zeroJitter initCtx
          (initSt 0)).map (fun r => r.2.calls)) = some 4 ∧
      ((executeWithErrorHandling defaultConfig slowOp zeroJitter initCtx
          (initSt 0)).map (fun r => r.1))
        = some (Except.error
            { message := "Timeout retries exceeded: Operation timeout after 10000ms" }) ∧
      (defaultConfig.operationTimeout : ℚ) * (3 / 2) ^ 1 = 15000 ∧
      ((15000 : ℚ) ≠ (defaultConfig.operationTimeout : ℚ)
        ∧ defaultConfig.operationTimeout = 10000) := by
  refine ⟨rfl, rfl, rfl, by decide, rfl, by norm_num [defaultConfig], ?_, rfl⟩
  norm_num [defaultConfig]

end EdgeCase

namespace EdgeCase

/-! ### Claim C2 — retry exhaustion of a Connection-classified
operation -/

/-- The state after the invoke bookkeeping of the race: the invocation
is recorded and the clock has advanced to the moment the operation
settled. -/
def recordInvoke (cfg : Config) (ctx : Ctx) (d : Nat) (st : ExecSt) : ExecSt :=
  { st with calls := st.calls + 1,
            trace := st.trace ++ [TraceEv.invoke st.calls cfg.operationTimeout ctx.timeout],
            now := st.now + d }

theorem execF_notOpen_fail_step {V : Type} (cfg : Config) (op : Nat → OpCall V)
    (J : Nat → Nat) (fuel : Nat) (ctx : Ctx) (st : ExecSt) (e : JsError)
    (h1 : ¬ st.circuitBreakerState = CBState.OPEN)
    (h2 : (op st.calls).duration < cfg.operationTimeout)
    (h3 : (op st.calls).result = Except.error e) :
    execF cfg op J (fuel + 1) ctx st
      = handleOperationFailure cfg J (execF cfg op J fuel) e ctx
          (recordInvoke cfg ctx (op st.calls).duration st) := by
  simp only [execF]
  rw [if_neg h1, if_pos h2, h3]
  rfl

/-- `handleOperationFailure` on a Connection-classified error when the
failure does not reach the breaker threshold. -/
theorem handleFailure_connection_noOpen {V : Type} (cfg : Config) (J : Nat → Nat)
    (recur : Ctx → ExecSt → Option (Except JsError V × ExecSt))
    (e : JsError) (ctx : Ctx) (st : ExecSt)
    (hcls : classifyError e = ErrorType.CONNECTION_ERROR)
    (hth : ¬ cfg.circuitBreakerThreshold ≤ st.failureCount + 1) :
    handleOperationFailure cfg J recur e ctx st
      = (if cfg.maxRetries < ctx.retryAttempt + 1 then
          some (Except.error { message := "Max retries (" ++ toString cfg.maxRetries
            ++ ") exceeded for connection error: " ++ e.message }, markFailed st)
        else
          recur { ctx with retryAttempt := ctx.retryAttempt + 1 }
            (sleep (calculateBackoffDelay cfg (ctx.retryAttempt + 1) (J st.jidx))
              (bumpJitter (markFailed st)))) := by
  simp only [handleOperationFailure, hcls]
  rw [if_neg hth]
  rfl

/-- `handleOperationFailure` on a Connection-classified error when the
failure reaches the breaker threshold and opens the circuit. -/
theorem handleFailure_connection_open {V : Type} (cfg : Config) (J : Nat → Nat)
    (recur : Ctx → ExecSt → Option (Except JsError V × ExecSt))
    (e : JsError) (ctx : Ctx) (st : ExecSt)
    (hcls : classifyError e = ErrorType.CONNECTION_ERROR)
    (hth : cfg.circuitBreakerThreshold ≤ st.failureCount + 1) :
    handleOperationFailure cfg J recur e ctx st
      = (if cfg.maxRetries < ctx.retryAttempt + 1 then
          some (Except.error { message := "Max retries (" ++ toString cfg.maxRetries
            ++ ") exceeded for connection error: " ++ e.message },
            openCircuitBreaker (markFailed st))
        else
          recur { ctx with retryAttempt := ctx.retryAttempt + 1 }
            (sleep (calculateBackoffDelay cfg (ctx.retryAttempt + 1) (J st.jidx))
              (bumpJitter (openCircuitBreaker (markFailed st))))) := by
  simp only [handleOperationFailure, hcls]
  rw [if_pos hth]
  rfl

end EdgeCase

namespace EdgeCase

/-- `EdgeCaseHandler` configured so the circuit breaker never trips
within a single retry chain (`circuitBreakerThreshold = 100`),
isolating the pure retry-counting behaviour. -/
def noBreakerConfig : Config :=
  { defaultConfig with circuitBreakerThreshold := 100 }

/-- With the breaker out of the way, an always-failing
Connection-classified operation entered at `retryAttempt = r` is
invoked `(10 - r) + 1` more times (the current attempt plus the
remaining retries) and then surfaces the max-retries error built from
the last failure. -/
theorem execF_conn_chain_noBreaker {V : Type} (op : Nat → OpCall V) (e : Nat → JsError)
    (J : Nat → Nat)
    (hop : ∀ i, (op i).duration < 10000 ∧ (op i).result = Except.error (e i))
    (hcls : ∀ i, classifyError (e i) = ErrorType.CONNECTION_ERROR) :
    ∀ (fuel : Nat) (ctx : Ctx) (st : ExecSt),
      st.circuitBreakerState = CBState.CLOSED →
      st.failureCount + (10 - ctx.retryAttempt) + 1 < 100 →
      ctx.retryAttempt ≤ 10 →
      (10 - ctx.retryAttempt) + 1 ≤ fuel →
      ∃ st2, execF noBreakerConfig op J fuel ctx st
          = some (Except.error { message := "Max retries (10) exceeded for connection error: "
              ++ (e (st.calls + (10 - ctx.retryAttempt))).message }, st2) ∧
        st2.calls = st.calls + (10 - ctx.retryAttempt) + 1 ∧
        st2.circuitBreakerState = CBState.CLOSED ∧
        st2.failureCount = st.failureCount + (10 - ctx.retryAttempt) + 1 := by
  intro fuel
  induction fuel with
  | zero =>
      intro ctx st _ _ _ hfuel
      omega
  | succ n ih =>
      intro ctx st hclosed hfc hr hfuel
      have hnotopen : ¬ st.circuitBreakerState = CBState.OPEN := by
        rw [hclosed]
        intro h
        cases h
      rw [execF_notOpen_fail_step noBreakerConfig op J n ctx st (e st.calls) hnotopen
        (hop st.calls).1 (hop st.calls).2]
      have hrec : (recordInvoke noBreakerConfig ctx (op st.calls).duration st).failureCount
          = st.failureCount := rfl
      have hth : ¬ noBreakerConfig.circuitBreakerThreshold
          ≤ (recordInvoke noBreakerConfig ctx (op st.calls).duration st).failureCount + 1 := by
        rw [hrec]
        show ¬ (100 ≤ st.failureCount + 1)
        omega
      rw [handleFailure_connection_noOpen noBreakerConfig J _ (e st.calls) ctx _
        (hcls st.calls) hth]
      by_cases hmax : 10 < ctx.retryAttempt + 1
      · have hr10 : ctx.retryAttempt = 10 := by omega
        rw [if_pos (show noBreakerConfig.maxRetries < ctx.retryAttempt + 1 from hmax)]
        refine ⟨markFailed (recordInvoke noBreakerConfig ctx (op st.calls).duration st),
          ?_, ?_, ?_, ?_⟩
        · rw [hr10]
          have hidx : st.calls + (10 - 10) = st.calls := rfl
          rw [hidx]
          rfl
        · show st.calls + 1 = st.calls + (10 - ctx.retryAttempt) + 1
          omega
        · show st.circuitBreakerState = CBState.CLOSED
          exact hclosed
        · show st.failureCount + 1 = st.failureCount + (10 - ctx.retryAttempt) + 1
          omega
      · rw [if_neg (show ¬ noBreakerConfig.maxRetries < ctx.retryAttempt + 1 from hmax)]
        have hchain := ih { ctx with retryAttempt := ctx.retryAttempt + 1 }
          (sleep (calculateBackoffDelay noBreakerConfig (ctx.retryAttempt + 1)
            (J (recordInvoke noBreakerConfig ctx (op st.calls).duration st).jidx))
            (bumpJitter (markFailed (recordInvoke noBreakerConfig ctx
              (op st.calls).duration st))))
          hclosed (by rw [hrec] at *; show st.failureCount + 1 + (10 - (ctx.retryAttempt + 1)) + 1 < 100; omega)
          (by show ctx.retryAttempt + 1 ≤ 10; omega)
          (by show 10 - (ctx.retryAttempt + 1) + 1 ≤ n; omega)
        obtain ⟨st2, he, hc, hcb, hf⟩ := hchain
        refine ⟨st2, ?_, ?_, hcb, ?_⟩
        · have hidx : st.calls + (10 - ctx.retryAttempt)
              = st.calls + 1 + (10 - (ctx.retryAttempt + 1)) := by omega
          rw [hidx]
          exact he
        · rw [hc]
          show st.calls + 1 + (10 - (ctx.retryAttempt + 1)) + 1
            = st.calls + (10 - ctx.retryAttempt) + 1
          omega
        · rw [hf]
          show st.failureCount + 1 + (10 - (ctx.retryAttempt + 1)) + 1
            = st.failureCount + (10 - ctx.retryAttempt) + 1
          omega

end EdgeCase

namespace EdgeCase

/-- Default configuration: an always-failing Connection-classified
operation entered at `retryAttempt = failureCount = r ≤ 4` is invoked
exactly `5 - r` more times; the fifth consecutive failure opens the
breaker, the sixth attempt is rejected by the open circuit without an
invocation, and the `CircuitOpenError` surfaces as the terminal
error. -/
theorem execF_conn_chain_default {V : Type} (op : Nat → OpCall V) (e : Nat → JsError)
    (J : Nat → Nat)
    (hop : ∀ i, (op i).duration < 10000 ∧ (op i).result = Except.error (e i))
    (hcls : ∀ i, classifyError (e i) = ErrorType.CONNECTION_ERROR) :
    ∀ (fuel r : Nat) (o : Option ℚ) (st : ExecSt),
      st.circuitBreakerState = CBState.CLOSED →
      st.failureCount = r →
      r ≤ 4 →
      (5 - r) + 1 ≤ fuel →
      ∃ st2, execF defaultConfig op J fuel { retryAttempt := r, timeout := o } st
          = some (Except.error circuitOpenError, st2) ∧
        st2.calls = st.calls + (5 - r) ∧
        st2.circuitBreakerState = CBState.OPEN := by
  intro fuel
  induction fuel with
  | zero =>
      intro r o st _ _ _ hfuel
      omega
  | succ n ih =>
      intro r o st hclosed hfc hr4 hfuel
      have hnotopen : ¬ st.circuitBreakerState = CBState.OPEN := by
        rw [hclosed]
        intro h
        cases h
      rw [execF_notOpen_fail_step defaultConfig op J n _ st (e st.calls) hnotopen
        (hop st.calls).1 (hop st.calls).2]
      have hrecfc : (recordInvoke defaultConfig { retryAttempt := r, timeout := o }
          (op st.calls).duration st).failureCount = st.failureCount := rfl
      by_cases h4 : r = 4
      · -- fifth consecutive failure: the breaker opens, and the retry
        -- runs into the open circuit
        have hth : defaultConfig.circuitBreakerThreshold
            ≤ (recordInvoke defaultConfig { retryAttempt := r, timeout := o }
              (op st.calls).duration st).failureCount + 1 := by
          rw [hrecfc, hfc, h4]
          show 5 ≤ 5
          omega
        rw [handleFailure_connection_open defaultConfig J _ (e st.calls) _ _
          (hcls st.calls) hth]
        rw [if_neg (show ¬ defaultConfig.maxRetries
          < ({ retryAttempt := r, timeout := o } : Ctx).retryAttempt + 1 by
            show ¬ 10 < r + 1
            omega)]
        have hopen3 : (sleep (calculateBackoffDelay defaultConfig
            (({ retryAttempt := r, timeout := o } : Ctx).retryAttempt + 1)
            (J (openCircuitBreaker (markFailed (recordInvoke defaultConfig
              { retryAttempt := r, timeout := o } (op st.calls).duration st))).jidx))
            (bumpJitter (openCircuitBreaker (markFailed (recordInvoke defaultConfig
              { retryAttempt := r, timeout := o } (op st.calls).duration st))))).circuitBreakerState
            = CBState.OPEN := rfl
        have helapsed3 : (sleep (calculateBackoffDelay defaultConfig
            (({ retryAttempt := r, timeout := o } : Ctx).retryAttempt + 1)
            (J (openCircuitBreaker (markFailed (recordInvoke defaultConfig
              { retryAttempt := r, timeout := o } (op st.calls).duration st))).jidx))
            (bumpJitter (openCircuitBreaker (markFailed (recordInvoke defaultConfig
              { retryAttempt := r, timeout := o } (op st.calls).duration st))))).now
            - (sleep (calculateBackoffDelay defaultConfig
            (({ retryAttempt := r, timeout := o } : Ctx).retryAttempt + 1)
            (J (openCircuitBreaker (markFailed (recordInvoke defaultConfig
              { retryAttempt := r, timeout := o } (op st.calls).duration st))).jidx))
            (bumpJitter (openCircuitBreaker (markFailed (recordInvoke defaultConfig
              { retryAttempt := r, timeout := o } (op st.calls).duration st))))).lastFailureTime
            ≤ 30000 := by
          show (st.now + (op st.calls).duration
              + calculateBackoffDelay defaultConfig (r + 1) _)
              - (st.now + (op st.calls).duration) ≤ 30000
          have : calculateBackoffDelay defaultConfig (r + 1) (J st.jidx) ≤ 30000 := by
            unfold calculateBackoffDelay
            omega
          unfold calculateBackoffDelay at *
          omega
        obtain ⟨st2, he2, ho2, hc2, _, _, _, _⟩ :=
          execF_open_reject op J n { retryAttempt := r + 1, timeout := o }
            (sleep (calculateBackoffDelay defaultConfig
              (({ retryAttempt := r, timeout := o } : Ctx).retryAttempt + 1)
              (J (openCircuitBreaker (markFailed (recordInvoke defaultConfig
                { retryAttempt := r, timeout := o } (op st.calls).duration st))).jidx))
              (bumpJitter (openCircuitBreaker (markFailed (recordInvoke defaultConfig
                { retryAttempt := r, timeout := o } (op st.calls).duration st)))))
            hopen3 helapsed3 (by show 5 - (r + 1) + 1 ≤ n; omega)
        refine ⟨st2, he2, ?_, ho2⟩
        · rw [hc2]
          show st.calls + 1 = st.calls + (5 - r)
          omega
      · -- below the threshold: plain connection retry, breaker closed
        have hth : ¬ defaultConfig.circuitBreakerThreshold
            ≤ (recordInvoke defaultConfig { retryAttempt := r, timeout := o }
              (op st.calls).duration st).failureCount + 1 := by
          rw [hrecfc, hfc]
          show ¬ 5 ≤ r + 1
          omega
        rw [handleFailure_connection_noOpen defaultConfig J _ (e st.calls) _ _
          (hcls st.calls) hth]
        rw [if_neg (show ¬ defaultConfig.maxRetries
          < ({ retryAttempt := r, timeout := o } : Ctx).retryAttempt + 1 by
            show ¬ 10 < r + 1
            omega)]
        have hchain := ih (r + 1) o
          (sleep (calculateBackoffDelay defaultConfig
            (({ retryAttempt := r, timeout := o } : Ctx).retryAttempt + 1)
            (J (markFailed (recordInvoke defaultConfig { retryAttempt := r, timeout := o }
              (op st.calls).duration st)).jidx))
            (bumpJitter (markFailed (recordInvoke defaultConfig
              { retryAttempt := r, timeout := o } (op st.calls).duration st))))
          hclosed (by show st.failureCount + 1 = r + 1; omega)
          (by omega) (by omega)
        obtain ⟨st2, he, hc, hcb⟩ := hchain
        refine ⟨st2, he, ?_, hcb⟩
        · rw [hc]
          show st.calls + 1 + (5 - (r + 1)) = st.calls + (5 - r)
          omega

end EdgeCase

namespace EdgeCase

/-- The canonical always-failing Connection-classified operation:
every invocation rejects instantly with `"connection refused"`. -/
def connFailOp : Nat → OpCall Nat :=
  fun _ => { duration := 0, result := Except.error { message := "connection refused" } }

def connFailErr : Nat → JsError :=
  fun _ => { message := "connection refused" }

/-- C2 counterexample: with the default configuration, the
always-failing Connection-classified operation is invoked only **5**
times — circuitBreakerThreshold, not maxRetries = 10 — because the
fifth consecutive failure opens the breaker and the sixth attempt is
rejected by the open circuit; the terminal error is the
`CircuitOpenError`, which names neither the Connection category nor an
attempt count. -/
theorem connection_retry_count_cex :
    ((executeWithErrorHandling defaultConfig connFailOp zeroJitter initCtx
        (initSt 0)).map (fun r => r.2.calls)) = some 5 ∧
      ((executeWithErrorHandling defaultConfig connFailOp zeroJitter initCtx
          (initSt 0)).map (fun r => r.1)) = some (Except.error circuitOpenError) ∧
      (5 : Nat) ≠ defaultConfig.maxRetries := by
  refine ⟨rfl, rfl, by decide⟩

/-- C2 (amended): for every always-failing Connection-classified
operation (any durations below `operationTimeout`, any jitter draw,
any start clock), under the default configuration the operation is
invoked exactly `circuitBreakerThreshold = 5` times and the terminal
error is the circuit-open rejection; only with the breaker out of the
way (`circuitBreakerThreshold = 100`) is the operation invoked exactly
`maxRetries + 1 = 11` times (the initial attempt plus `maxRetries`
retries) — not 10 — and then the terminal error names the connection
category and the `maxRetries` count. -/
theorem connection_retry_exhaustion_amended {V : Type} (op : Nat → OpCall V)
    (e : Nat → JsError) (J : Nat → Nat) (t : Nat)
    (hop : ∀ i, (op i).duration < 10000 ∧ (op i).result = Except.error (e i))
    (hcls : ∀ i, classifyError (e i) = ErrorType.CONNECTION_ERROR) :
    (∃ st2, executeWithErrorHandling defaultConfig op J initCtx (initSt t)
        = some (Except.error circuitOpenError, st2) ∧
      st2.calls = 5 ∧ st2.circuitBreakerState = CBState.OPEN) ∧
    (∃ st2, executeWithErrorHandling noBreakerConfig op J initCtx (initSt t)
        = some (Except.error { message := "Max retries (10) exceeded for connection error: "
            ++ (e 10).message }, st2) ∧
      st2.calls = 11 ∧ st2.failureCount = 11) := by
  constructor
  · obtain ⟨st2, he, hc, ho⟩ := execF_conn_chain_default op e J hop hcls
      (max defaultConfig.maxRetries 3 + 2) 0 none (initSt t) rfl rfl (by omega)
      (by show 5 - 0 + 1 ≤ 12; omega)
    exact ⟨st2, he, hc, ho⟩
  · obtain ⟨st2, he, hc, _, hf⟩ := execF_conn_chain_noBreaker op e J hop hcls
      (max noBreakerConfig.maxRetries 3 + 2) initCtx (initSt t) rfl
      (by show 0 + (10 - 0) + 1 < 100; omega)
      (by show (0 : Nat) ≤ 10; omega)
      (by show 10 - 0 + 1 ≤ 12; omega)
    exact ⟨st2, he, hc, hf⟩

theorem connection_retry_exhaustion_amended_witness :
    (∀ i, (connFailOp i).duration < 10000
        ∧ (connFailOp i).result = Except.error (connFailErr i)) ∧
      (∀ i, classifyError (connFailErr i) = ErrorType.CONNECTION_ERROR) ∧
      (∃ st2, executeWithErrorHandling defaultConfig connFailOp zeroJitter initCtx
          (initSt 0) = some (Except.error circuitOpenError, st2) ∧
        st2.calls = 5 ∧ st2.circuitBreakerState = CBState.OPEN) ∧
      (∃ st2, executeWithErrorHandling noBreakerConfig connFailOp zeroJitter initCtx
          (initSt 0) = some (Except.error
            { message := "Max retries (10) exceeded for connection error: "
              ++ (connFailErr 10).message }, st2) ∧
        st2.calls = 11 ∧ st2.failureCount = 11) := by
  have hd : (0 : Nat) < 10000 := by decide
  have hcl : classifyError { message := "connection refused" }
      = ErrorType.CONNECTION_ERROR := by decide
  have h := connection_retry_exhaustion_amended connFailOp connFailErr zeroJitter 0
    (fun i => ⟨hd, rfl⟩) (fun i => hcl)
  exact ⟨fun i => ⟨hd, rfl⟩, fun i => hcl, h.1, h.2⟩

end EdgeCase
